import Mathlib

/-! unified-ci: the vulnerability check pipeline and the process supervisor

A shallow embedding of `src/checker/checks.go` (`CheckVulnerability`,
`VulnerabilityCheckRun`) and of the flag parsing and handling, task dispatch
and shutdown sequence of `src/main.go` (`main`).

The collaborators the two files call but do not define (file probe, scanner,
hosting-provider client, clock) are fields of a `World`.  Every call to a
collaborator is appended, with the answer it gave, to a history of `Event`s, and
every answer may depend on the history so far: the scanner and the provider are
stateful.
-/

namespace UnifiedCI

/-! ## Data model -/

/-- A Go `error` value, represented by the text `%v` prints for it; `nil` is
`none` of `Option Error`. -/
abbrev Error := String

/-- The ecosystem tags `common.Golang`, `common.PHP`, `common.NodeJS` handed to
the scanner. -/
inductive Language where
  | Golang
  | PHP
  | NodeJS
  deriving DecidableEq, Repr

/-- Modelled from the spec: the finding record `riki.Data` is declared outside
the two source files; the pipeline uses only its two renderers, the table header
`MDTitle()` and the table row `MDTableRow()`, so a finding is the pair of the
two rendered texts. -/
structure Data where
  MDTitle : String
  MDTableRow : String
  deriving DecidableEq, Repr

/-- The record `github.CheckRun` as far as the pipeline reads it: the pointer
field `ID *int64`. -/
structure CheckRun where
  ID : Option Int
  deriving DecidableEq, Repr

/-- The nil-safe getter `(*github.CheckRun).GetID`: the identifier, or zero for
a nil receiver or a nil `ID` field. -/
def GetID : Option CheckRun → Int
  | some ⟨some id⟩ => id
  | _ => 0

/-- Modelled from the spec: the type `GithubRef` is declared elsewhere in package
checker; the pipeline reads only its repository slug `ref.repo`. -/
structure GithubRef where
  repo : String
  deriving DecidableEq, Repr

/-- One entry of a check run's annotation list (`nil` in this pipeline). -/
structure CheckRunAnnotation where
  Message : String
  deriving DecidableEq, Repr

deriving instance DecidableEq for Except

/-- A call to a collaborator together with the answer it gave. -/
inductive Event where
  | CheckPackages (projectName : String) (lang : Language) (path : String) (err : Option Error)
  | WaitForQuery (projectName : String)
  | Query (projectName : String) (lang : Language) (res : Except Error (List Data))
  | CreateCheckRun (checkName : String) (ref : GithubRef) (targetURL : String)
      (res : Except Error (Option CheckRun))
  | UpdateCheckRun (checkRunID : Int) (checkName conclusion : String) (t : Nat)
      (summary body : String) (annots : List CheckRunAnnotation) (err : Option Error)
  | UpdateCheckRunWithError (checkRunID : Int) (checkName outputTitle : String) (err : Error)
  | WriteLog (s : String)
  | LogError (msg : String)
  deriving DecidableEq

/-- The history of collaborator calls, oldest first. -/
abbrev Trace := List Event

/-- The collaborators of package checker.  Each answer is a function of the
history so far and of the arguments of the call. -/
structure World where
  /-- The library function `filepath.Join` on two elements. -/
  Join : String → String → String
  /-- The probe `util.FileExists`, a pure predicate over a path. -/
  FileExists : String → Bool
  /-- The error returned by `riki.Scanner.CheckPackages` (its acknowledgement is
  discarded by the caller). -/
  checkPackages : Trace → String → Language → String → Option Error
  /-- The result of `riki.Scanner.Query`. -/
  query : Trace → String → Language → Except Error (List Data)
  /-- The result of `CreateCheckRun`: a check run pointer, or an error. -/
  createCheckRun : Trace → String → GithubRef → String → Except Error (Option CheckRun)
  /-- The error returned by `UpdateCheckRun`. -/
  updateCheckRun : Trace → Int → String → String → Nat → String → String →
    List CheckRunAnnotation → Option Error
  /-- The clock `time.Now()`. -/
  now : Trace → Nat

/-! ## The scanner and provider calls, recorded in the history -/

/-- The call `scanner.CheckPackages(lang, path)`. -/
def Scanner.CheckPackages (w : World) (projectName : String) (lang : Language) (path : String)
    (tr : Trace) : Option Error × Trace :=
  let err := w.checkPackages tr projectName lang path
  (err, tr ++ [Event.CheckPackages projectName lang path err])

/-- The call `scanner.WaitForQuery()`. -/
def Scanner.WaitForQuery (projectName : String) (tr : Trace) : Trace :=
  tr ++ [Event.WaitForQuery projectName]

/-- The call `scanner.Query(lang)`. -/
def Scanner.Query (w : World) (projectName : String) (lang : Language) (tr : Trace) :
    Except Error (List Data) × Trace :=
  let res := w.query tr projectName lang
  (res, tr ++ [Event.Query projectName lang res])

/-- The call `CreateCheckRun(ctx, client, gpull, checkName, ref, targetURL)`. -/
def CreateCheckRun (w : World) (checkName : String) (ref : GithubRef) (targetURL : String)
    (tr : Trace) : Except Error (Option CheckRun) × Trace :=
  let res := w.createCheckRun tr checkName ref targetURL
  (res, tr ++ [Event.CreateCheckRun checkName ref targetURL res])

/-- The call `UpdateCheckRun(ctx, client, gpull, checkRunID, checkName, conclusion, t,
summary, body, annotations)`; the last three parameters are named as in the
provider adapter of the spec. -/
def UpdateCheckRun (w : World) (checkRunID : Int) (checkName conclusion : String) (t : Nat)
    (summary body : String) (annots : List CheckRunAnnotation) (tr : Trace) :
    Option Error × Trace :=
  let err := w.updateCheckRun tr checkRunID checkName conclusion t summary body annots
  (err, tr ++ [Event.UpdateCheckRun checkRunID checkName conclusion t summary body annots err])

/-- The call `UpdateCheckRunWithError(ctx, client, gpull, checkRunID, checkName,
outputTitle, err)`, whose result the pipeline ignores. -/
def UpdateCheckRunWithError (checkRunID : Int) (checkName outputTitle : String) (err : Error)
    (tr : Trace) : Trace :=
  tr ++ [Event.UpdateCheckRunWithError checkRunID checkName outputTitle err]

/-- The pair `io.WriteString(log, msg+"\n")`, `LogError.Error(msg)`. -/
def logBoth (msg : String) (tr : Trace) : Trace :=
  tr ++ [Event.WriteLog (msg ++ "\n"), Event.LogError msg]

/-! ## `CheckVulnerability` (checks.go, lines 17-57)

`(nil, err)` is `Except.error err`, `(result, nil)` is `Except.ok result`. -/

/-- The loop `for _, v := range lang` of lines 48-54, with `result` as
accumulator. -/
def CheckVulnerability.queryLoop (w : World) (projectName : String) :
    List Language → List Data → Trace → Except Error (List Data) × Trace
  | [], result, tr => (Except.ok result, tr)
  | v :: rest, result, tr =>
    match Scanner.Query w projectName v tr with
    | (Except.error err, tr1) => (Except.error err, tr1)
    | (Except.ok data, tr1) => CheckVulnerability.queryLoop w projectName rest (result ++ data) tr1

/-- Lines 46-56: wait and collect, once `lang` is complete. -/
def CheckVulnerability.collect (w : World) (projectName : String) (lang : List Language)
    (tr : Trace) : Except Error (List Data) × Trace :=
  if lang.length > 0 then
    CheckVulnerability.queryLoop w projectName lang [] (Scanner.WaitForQuery projectName tr)
  else
    (Except.ok [], tr)

/-- Lines 37-56: the `package.json` block and what follows it. -/
def CheckVulnerability.fromNodePackage (w : World) (projectName repoPath : String)
    (lang : List Language) (tr : Trace) : Except Error (List Data) × Trace :=
  let nodePackage := w.Join repoPath "package.json"
  if w.FileExists nodePackage then
    match Scanner.CheckPackages w projectName Language.NodeJS nodePackage tr with
    | (some err, tr1) => (Except.error err, tr1)
    | (none, tr1) => CheckVulnerability.collect w projectName (lang ++ [Language.NodeJS]) tr1
  else
    CheckVulnerability.collect w projectName lang tr

/-- Lines 29-56: the `composer.lock` block and what follows it. -/
def CheckVulnerability.fromComposer (w : World) (projectName repoPath : String)
    (lang : List Language) (tr : Trace) : Except Error (List Data) × Trace :=
  let composer := w.Join repoPath "composer.lock"
  if w.FileExists composer then
    match Scanner.CheckPackages w projectName Language.PHP composer tr with
    | (some err, tr1) => (Except.error err, tr1)
    | (none, tr1) =>
      CheckVulnerability.fromNodePackage w projectName repoPath (lang ++ [Language.PHP]) tr1
  else
    CheckVulnerability.fromNodePackage w projectName repoPath lang tr

/-- The function `CheckVulnerability(projectName, repoPath)`: the `go.sum` block
(lines 18-28) and what follows it. -/
def CheckVulnerability (w : World) (projectName repoPath : String) (tr : Trace) :
    Except Error (List Data) × Trace :=
  let lang : List Language := []
  let gomod := w.Join repoPath "go.sum"
  if w.FileExists gomod then
    match Scanner.CheckPackages w projectName Language.Golang gomod tr with
    | (some err, tr1) => (Except.error err, tr1)
    | (none, tr1) =>
      CheckVulnerability.fromComposer w projectName repoPath (lang ++ [Language.Golang]) tr1
  else
    CheckVulnerability.fromComposer w projectName repoPath lang tr

/-! ## `VulnerabilityCheckRun` (checks.go, lines 60-114) -/

/-- The constant `checkName`. -/
def checkName : String := "vulnerability"

/-- Lines 63-72: the first creation; yields `checkRunID`. -/
def VulnerabilityCheckRun.announce (w : World) (ref : GithubRef) (targetURL : String)
    (tr : Trace) : Int × Trace :=
  match CreateCheckRun w checkName ref targetURL tr with
  | (Except.error err, tr1) =>
    (0, logBoth ("Creating " ++ checkName ++ " check run failed: " ++ err) tr1)
  | (Except.ok checkRun, tr1) => (GetID checkRun, tr1)

/-- Lines 95-102: the conclusion and the message computed from the findings;
`len(data) > 0` is the case `d0 :: _`, where `d0` is `data[0]`. -/
def VulnerabilityCheckRun.verdict (data : List Data) : String × String :=
  match data with
  | [] => ("success", "no vulnerabilities")
  | d0 :: _ => ("failure", data.foldl (fun message v => message ++ v.MDTableRow) d0.MDTitle)

/-- Lines 95-113: publish the verdict on check run `checkRunID`. -/
def VulnerabilityCheckRun.publish (w : World) (checkRunID : Int) (data : List Data)
    (tr : Trace) : (Nat × Option Error) × Trace :=
  let conclusion := (VulnerabilityCheckRun.verdict data).1
  let message := (VulnerabilityCheckRun.verdict data).2
  let t := w.now tr
  match UpdateCheckRun w checkRunID checkName conclusion t conclusion message [] tr with
  | (some err, tr1) =>
    ((0, some err), logBoth ("report package vulnerability to github failed: " ++ err) tr1)
  | (none, tr1) => ((data.length, none), tr1)

/-- Lines 74-113: everything after the first creation. -/
def VulnerabilityCheckRun.afterAnnounce (w : World) (ref : GithubRef)
    (repoPath targetURL : String) (checkRunID : Int) (tr : Trace) :
    (Nat × Option Error) × Trace :=
  match CheckVulnerability w ref.repo repoPath tr with
  | (Except.error err, tr1) =>
    let tr2 := logBoth ("checks package vulnerability failed: " ++ err) tr1
    if checkRunID ≠ 0 then
      ((0, some err), UpdateCheckRunWithError checkRunID checkName checkName err tr2)
    else
      ((0, some err), tr2)
  | (Except.ok data, tr1) =>
    if checkRunID = 0 then
      match CreateCheckRun w checkName ref targetURL tr1 with
      | (Except.error err, tr2) =>
        ((0, some err), logBoth ("Creating " ++ checkName ++ " check run failed: " ++ err) tr2)
      | (Except.ok checkRun, tr2) => VulnerabilityCheckRun.publish w (GetID checkRun) data tr2
    else
      VulnerabilityCheckRun.publish w checkRunID data tr1

/-- The function `VulnerabilityCheckRun(ctx, client, gpull, ref, repoPath, targetURL, log)`,
run on history `tr`: the returned pair `(int, error)` and the history afterwards. -/
def VulnerabilityCheckRun (w : World) (ref : GithubRef) (repoPath targetURL : String)
    (tr : Trace) : (Nat × Option Error) × Trace :=
  VulnerabilityCheckRun.afterAnnounce w ref repoPath targetURL
    (VulnerabilityCheckRun.announce w ref targetURL tr).1
    (VulnerabilityCheckRun.announce w ref targetURL tr).2

/-- The events a run of `VulnerabilityCheckRun` started on history `tr` adds to it. -/
def VulnerabilityCheckRun.events (w : World) (ref : GithubRef) (repoPath targetURL : String)
    (tr : Trace) : List Event :=
  (VulnerabilityCheckRun w ref repoPath targetURL tr).2.drop tr.length

/-- The result of the scan stage (line 74) inside a run of `VulnerabilityCheckRun`
started on history `tr`. -/
def VulnerabilityCheckRun.scan (w : World) (ref : GithubRef) (repoPath targetURL : String)
    (tr : Trace) : Except Error (List Data) :=
  (CheckVulnerability w ref.repo repoPath (VulnerabilityCheckRun.announce w ref targetURL tr).2).1

/-- The events a call of `CheckVulnerability` on history `tr` adds to it. -/
def CheckVulnerability.events (w : World) (projectName repoPath : String) (tr : Trace) :
    List Event :=
  (CheckVulnerability w projectName repoPath tr).2.drop tr.length

/-! ## Observations on a history -/

/-- A scanner call without its answer. -/
inductive ScannerCall where
  | CheckPackages (lang : Language) (path : String)
  | WaitForQuery
  | Query (lang : Language)
  deriving DecidableEq, Repr

/-- The scanner call an event records, if it records one. -/
def Event.scannerCall : Event → Option ScannerCall
  | Event.CheckPackages _ lang path _ => some (ScannerCall.CheckPackages lang path)
  | Event.WaitForQuery _ => some ScannerCall.WaitForQuery
  | Event.Query _ lang _ => some (ScannerCall.Query lang)
  | _ => none

/-- The scanner calls of a history, in order. -/
def scannerCalls (tr : List Event) : List ScannerCall := tr.filterMap Event.scannerCall

/-- The answer of a `CreateCheckRun` event. -/
def Event.createResult : Event → Option (Except Error (Option CheckRun))
  | Event.CreateCheckRun _ _ _ res => some res
  | _ => none

/-- The answers of the `CreateCheckRun` calls of a history, in order. -/
def createResults (tr : List Event) : List (Except Error (Option CheckRun)) :=
  tr.filterMap Event.createResult

/-- Whether an event is an `UpdateCheckRun` call. -/
def Event.isUpdateCheckRun : Event → Bool
  | Event.UpdateCheckRun _ _ _ _ _ _ _ _ => true
  | _ => false

/-- The `UpdateCheckRun` calls of a history, in order. -/
def updates (tr : List Event) : List Event := tr.filter Event.isUpdateCheckRun

/-- The error with which a scanner submission or fetch failed. -/
def Event.failure : Event → Option Error
  | Event.CheckPackages _ _ _ (some err) => some err
  | Event.Query _ _ (Except.error err) => some err
  | _ => none

/-- The errors of the failed scanner submissions and fetches of a history. -/
def failures (tr : List Event) : List Error := tr.filterMap Event.failure

/-- The ecosystem an accepted submission was made for. -/
def Event.submitted : Event → Option Language
  | Event.CheckPackages _ lang _ none => some lang
  | _ => none

/-- The ecosystems submitted to the scanner, in submission order. -/
def submitted (tr : List Event) : List Language := tr.filterMap Event.submitted

/-- The ecosystem a `Query` call fetched. -/
def Event.queried : Event → Option Language
  | Event.Query _ lang _ => some lang
  | _ => none

/-- The ecosystems fetched from the scanner, in order. -/
def queried (tr : List Event) : List Language := tr.filterMap Event.queried

/-- The findings a `Query` call returned. -/
def Event.findings : Event → List Data
  | Event.Query _ _ (Except.ok data) => data
  | _ => []

/-- The concatenation, in call order, of the sequences the `Query` calls of a
history returned. -/
def queryFindings (tr : List Event) : List Data := tr.flatMap Event.findings

/-- The manifest file names with their ecosystem tags, in the fixed probing order. -/
def manifests : List (Language × String) :=
  [(Language.Golang, "go.sum"), (Language.PHP, "composer.lock"), (Language.NodeJS, "package.json")]

/-- The manifests present in working copy `repoPath`, in the fixed order, as
`(ecosystem, path)` pairs. -/
def presentManifests (w : World) (repoPath : String) : List (Language × String) :=
  (manifests.map (fun m => (m.1, w.Join repoPath m.2))).filter (fun m => w.FileExists m.2)

/-! ## `main` (main.go) -/

/-- The string type `worker.Mode`. -/
abbrev Mode := String

/-- Modelled from the spec: the constant `worker.ModeLocal` is declared outside
the two source files; its token is "local". -/
def ModeLocal : Mode := "local"

/-- Modelled from the spec: the constant `worker.ModeServer`, token "server". -/
def ModeServer : Mode := "server"

/-- Modelled from the spec: the constant `worker.ModeWorker`, token "worker". -/
def ModeWorker : Mode := "worker"

/-- The values of the five command-line flags after `flag.Parse()`. -/
structure Flags where
  configPath : String
  mode : String
  showHelp : Bool
  showVerbose : Bool
  showVersion : Bool
  deriving DecidableEq, Repr

/-- The two output streams of the process. -/
inductive Stream where
  | Stdout
  | Stderr
  deriving DecidableEq, Repr

/-- The errors for which `flag.Parse` rejects an argument. -/
inductive FlagError where
  /-- Error "bad flag syntax", on argument `arg`. -/
  | BadSyntax (arg : String)
  /-- Error "flag provided but not defined", for flag `name`. -/
  | NotDefined (name : String)
  /-- Error "invalid boolean value", for `value` given to the boolean flag `name`. -/
  | InvalidBool (value name : String)
  /-- Error "flag needs an argument", for the string flag `name`. -/
  | NeedsArgument (name : String)
  deriving DecidableEq, Repr

/-- What lines 38-67 of `main` write. -/
inductive Output where
  /-- The call `fmt.Printf(format)`, to standard output. -/
  | Printf (format : String)
  /-- The call `fmt.Fprintln(stream, s)`. -/
  | Fprintln (stream : Stream) (s : String)
  /-- The usage message of `flag.Usage()`, written to `stream`. -/
  | Usage (stream : Stream)
  /-- The line `flag.Parse()` prints for an error, on `stream`. -/
  | ParseError (stream : Stream) (err : FlagError)
  deriving DecidableEq, Repr

/-- The call `flag.Usage()`: the flag set writes to its output, which is
`os.Stderr` as long as `SetOutput` is not called (and `main` does not call it). -/
def flagUsage : Output := Output.Usage Stream.Stderr

/-- How lines 33-67 of `main` end. -/
inductive Outcome where
  /-- The statement `return` of `main`: the process ends with status 0. -/
  | Return
  /-- The call `os.Exit(code)`. -/
  | Exit (code : Nat)
  /-- Control reaches line 69 with `checker.WorkingMode` set. -/
  | Continue (WorkingMode : Mode)
  deriving DecidableEq, Repr

/-- The exit status of the process, when lines 33-67 end it. -/
def Outcome.status : Outcome → Option Nat
  | Outcome.Return => some 0
  | Outcome.Exit code => some code
  | Outcome.Continue _ => none

/-- Lines 40-67 of `main`: the handling of the parsed flags.  `userAgent` is the
value of `common.UserAgent()`. -/
def main.flags (userAgent : String) (f : Flags) : List Output × Outcome :=
  if f.showHelp then
    ([Output.Printf (userAgent ++ "\n\n"), flagUsage], Outcome.Return)
  else if f.showVersion then
    ([Output.Printf (userAgent ++ "\n")], Outcome.Return)
  else if f.configPath = "" then
    ([Output.Fprintln Stream.Stderr "Please specify a config file", flagUsage], Outcome.Exit 1)
  else if f.mode = ModeLocal then ([], Outcome.Continue f.mode)
  else if f.mode = ModeServer then ([], Outcome.Continue f.mode)
  else if f.mode = ModeWorker then ([], Outcome.Continue f.mode)
  else
    ([Output.Fprintln Stream.Stderr ("Unknown working mode: " ++ f.mode), flagUsage],
      Outcome.Exit 1)

/-! ### `flag.Parse()` (main.go, line 38)

The call parses `os.Args[1:]` with the flag set `flag.CommandLine` of the Go
standard library, whose error handling is `ExitOnError`, after lines 33-37
have defined the string flags `config` and `mode` and the boolean flags `help`,
`verbose` and `version`. -/

/-- The values of the five flags before parsing: the defaults of lines 33-37. -/
def defaultFlags : Flags := ⟨"", ModeLocal, false, false, false⟩

/-- The library function `strconv.ParseBool`, which reads the value of a boolean
flag. -/
def ParseBool (s : String) : Option Bool :=
  if s = "1" ∨ s = "t" ∨ s = "T" ∨ s = "TRUE" ∨ s = "true" ∨ s = "True" then some true
  else if s = "0" ∨ s = "f" ∨ s = "F" ∨ s = "FALSE" ∨ s = "false" ∨ s = "False" then some false
  else none

/-- The loop of `parseOne` that looks for `=` in a flag name from its second
character on: the part before the first `=`, and the part after it if there is
one. -/
def splitValue : List Char → List Char × Option (List Char)
  | [] => ([], none)
  | c :: cs => if c = '=' then ([], some cs) else (c :: (splitValue cs).1, (splitValue cs).2)

/-- How `flag.Parse()` ends. -/
inductive Parsed where
  /-- It returns: the flag values, and the arguments left over. -/
  | Accepted (f : Flags) (args : List String)
  /-- It calls `os.Exit(code)` after writing `out`. -/
  | Exited (code : Nat) (out : List Output)
  deriving DecidableEq, Repr

/-- The end of `flag.Parse()` on an error other than `ErrHelp`: the error line
and the usage message on the error stream, then `os.Exit(2)`. -/
def parseFail (err : FlagError) : Parsed :=
  Parsed.Exited 2 [Output.ParseError Stream.Stderr err, flagUsage]

/-- The method `Set` of a string flag of `main`. -/
def Flags.setString (f : Flags) (name value : String) : Flags :=
  if name = "config" then { f with configPath := value } else { f with mode := value }

/-- The method `Set` of a boolean flag of `main`. -/
def Flags.setBool (f : Flags) (name : String) (value : Bool) : Flags :=
  if name = "help" then { f with showHelp := value }
  else if name = "verbose" then { f with showVerbose := value }
  else { f with showVersion := value }

/-- What `parseOne` of package flag makes of the first argument. -/
inductive Arg where
  /-- The argument is shorter than two characters or does not start with `-`:
  parsing stops and the argument stays. -/
  | NonFlag
  /-- The argument is `--`: parsing stops and the argument is consumed. -/
  | Terminator
  /-- The argument is rejected: `flag.Parse()` ends the process. -/
  | Reject (halt : Parsed)
  /-- The argument sets a flag, with a value of its own (`-name=value`) or as a
  boolean flag without value: the new flag values. -/
  | Set (f : Flags)
  /-- The argument names the string flag `name` without `=`: the value is the
  next argument. -/
  | NeedsNext (name : String)
  deriving DecidableEq, Repr

/-- The second half of `parseOne` of package flag: the flag `name` is looked
up among the five flags of `main` and set, `value` being the text after `=` if
the argument had one. -/
def FlagSet.setFlag (f : Flags) (name : String) (value : Option String) : Arg :=
  if name = "config" ∨ name = "mode" then
    match value with
    | some v => Arg.Set (f.setString name v)
    | none => Arg.NeedsNext name
  else if name = "help" ∨ name = "verbose" ∨ name = "version" then
    match value with
    | none => Arg.Set (f.setBool name true)
    | some v =>
      match ParseBool v with
      | some b => Arg.Set (f.setBool name b)
      | none => Arg.Reject (parseFail (FlagError.InvalidBool v name))
  else if name = "h" then Arg.Reject (Parsed.Exited 0 [flagUsage])
  else Arg.Reject (parseFail (FlagError.NotDefined name))

/-- The first half of `parseOne` of package flag: the syntax of the first
argument `s`, with `f` the flag values so far. -/
def FlagSet.readArg (f : Flags) (s : String) : Arg :=
  match s.data with
  | '-' :: c :: cs =>
    if c = '-' ∧ cs = [] then Arg.Terminator
    else
      match (if c = '-' then cs else c :: cs) with
      | [] => Arg.Reject (parseFail (FlagError.BadSyntax s))
      | n0 :: ns =>
        if n0 = '-' ∨ n0 = '=' then Arg.Reject (parseFail (FlagError.BadSyntax s))
        else
          FlagSet.setFlag f (String.mk (n0 :: (splitValue ns).1))
            ((splitValue ns).2.map String.mk)
  | _ => Arg.NonFlag

/-- The call `flag.Parse()`, as the loop of `FlagSet.Parse` over `parseOne` of
package flag: `f` holds the flag values so far and the list the arguments still
to be read.  An undefined `-h` writes usage and exits with status 0 (`ErrHelp`);
any other rejected argument writes the error and usage and exits with
status 2. -/
def FlagSet.Parse (f : Flags) : List String → Parsed
  | [] => Parsed.Accepted f []
  | s :: rest =>
    match FlagSet.readArg f s with
    | Arg.NonFlag => Parsed.Accepted f (s :: rest)
    | Arg.Terminator => Parsed.Accepted f rest
    | Arg.Reject halt => halt
    | Arg.Set f1 => FlagSet.Parse f1 rest
    | Arg.NeedsNext name =>
      match rest with
      | value :: rest2 => FlagSet.Parse (f.setString name value) rest2
      | [] => parseFail (FlagError.NeedsArgument name)

/-- Lines 33-67 of `main` on the arguments `argv` (`os.Args[1:]`): `flag.Parse()`,
then the handling of the parsed flags. -/
def main.startup (userAgent : String) (argv : List String) : List Output × Outcome :=
  match FlagSet.Parse defaultFlags argv with
  | Parsed.Exited code out => (out, Outcome.Exit code)
  | Parsed.Accepted f _ => main.flags userAgent f

/-- The procedures `main` hands to `g.Go`. -/
inductive GroupTask where
  | RetryErrorMessages
  | StartMessageSubscription
  | WatchLocalRepo
  | WatchServerWorkerRepo
  | StartWorkerMessageSubscription
  | RunHTTPServer (mode : Mode)
  deriving DecidableEq, Repr

/-- Lines 117-158 of `main`: the `g.Go` calls of the dispatching goroutine, in
program order, for the values of `checker.WorkingMode` and
`common.Conf.Core.EnableRetries`. -/
def main.launch (WorkingMode : Mode) (EnableRetries : Bool) : List GroupTask :=
  (if WorkingMode = ModeLocal then
    (if EnableRetries then [GroupTask.RetryErrorMessages] else []) ++
      [GroupTask.StartMessageSubscription, GroupTask.WatchLocalRepo]
  else if WorkingMode = ModeServer then
    (if EnableRetries then [GroupTask.RetryErrorMessages] else []) ++
      [GroupTask.WatchServerWorkerRepo]
  else if WorkingMode = ModeWorker then
    [GroupTask.StartWorkerMessageSubscription]
  else []) ++
  [GroupTask.RunHTTPServer WorkingMode]

/-- The closed enumeration of modes of the spec. -/
inductive ModeKind where
  | Local
  | Server
  | Worker
  deriving DecidableEq, Repr

/-- The token of a mode. -/
def ModeKind.token : ModeKind → Mode
  | ModeKind.Local => ModeLocal
  | ModeKind.Server => ModeServer
  | ModeKind.Worker => ModeWorker

/-- The mode table of the spec: the tasks launched in addition to the HTTP
server. -/
def modeTable : ModeKind → Bool → List GroupTask
  | ModeKind.Local, enableRetries =>
    (if enableRetries then [GroupTask.RetryErrorMessages] else []) ++
      [GroupTask.StartMessageSubscription, GroupTask.WatchLocalRepo]
  | ModeKind.Server, enableRetries =>
    (if enableRetries then [GroupTask.RetryErrorMessages] else []) ++
      [GroupTask.WatchServerWorkerRepo]
  | ModeKind.Worker, _ => [GroupTask.StartWorkerMessageSubscription]

/-- A `time.Duration`, in nanoseconds. -/
abbrev Duration := Nat

/-- The constant `time.Second`. -/
def Second : Duration := 1000000000

/-- The signals `main` registers with `signal.Notify`. -/
inductive Signal where
  | SIGINT
  | SIGTERM
  deriving DecidableEq, Repr

/-- What releases the `select` of lines 168-171. -/
inductive Wake where
  /-- A signal arrived on channel `shutdown`. -/
  | Shutdown (sig : Signal)
  /-- The context of the task group was cancelled. -/
  | Done
  deriving DecidableEq, Repr

/-- The steps of the main goroutine from line 173 on. -/
inductive Step where
  /-- The call `cancel()`. -/
  | Cancel
  /-- The call `server.ShutdownHTTPServer(timeout)`. -/
  | ShutdownHTTPServer (timeout : Duration)
  /-- The call `common.LogError.Errorf(format, err)`. -/
  | LogErrorf (format : String) (err : Error)
  /-- The `select` of lines 179-183: wait for channel `leave`, which the
  dispatching goroutine closes once `g.Wait()` has returned, or for
  `time.After(timer)`. -/
  | SelectLeave (timer : Duration)
  /-- The call `common.LogAccess.Info(msg)`. -/
  | LogInfo (msg : String)
  /-- The deferred call `store.Deinit()`, run when `main` returns. -/
  | StoreDeinit
  /-- The return of `main`. -/
  | Return
  deriving DecidableEq, Repr

/-- Lines 173-184 of `main`, entered when the `select` of lines 168-171 is
released by `wake`.  `shutdownErr` is the result of `ShutdownHTTPServer`, and
`drained` tells which case of the second `select` fires: `true` for `<-leave`,
`false` for the timer. -/
def main.shutdown (_wake : Wake) (shutdownErr : Option Error) (drained : Bool) : List Step :=
  [Step.Cancel, Step.ShutdownHTTPServer (60 * Second)] ++
  (match shutdownErr with
    | some err => [Step.LogErrorf "Error in ShutdownHTTPServer: %v\n" err]
    | none => []) ++
  [Step.SelectLeave (60 * Second)] ++
  (if drained then [] else [Step.LogInfo "Waiting for leave times out."]) ++
  [Step.StoreDeinit, Step.Return]

/-- Whether a step writes to a log. -/
def Step.isLog : Step → Bool
  | Step.LogErrorf _ _ => true
  | Step.LogInfo _ => true
  | _ => false

/-! ## Derived descriptions of a run, used to state and prove the theorems -/

/-- The two log events of `logBoth`. -/
def logEvents (msg : String) : List Event := [Event.WriteLog (msg ++ "\n"), Event.LogError msg]

/-- The value of `checkRunID` after lines 63-72, given the answer of the first
creation. -/
def firstID : Except Error (Option CheckRun) → Int
  | Except.error _ => 0
  | Except.ok checkRun => GetID checkRun

/-- The log events of lines 65-68, given the answer of the first creation. -/
def announceLog : Except Error (Option CheckRun) → List Event
  | Except.error err => logEvents ("Creating " ++ checkName ++ " check run failed: " ++ err)
  | Except.ok _ => []

/-- The events of lines 105-112 on check run `id`, given the clock reading and
the answer of `UpdateCheckRun`. -/
def publishEvents (id : Int) (data : List Data) (t : Nat) (uerr : Option Error) : List Event :=
  Event.UpdateCheckRun id checkName (VulnerabilityCheckRun.verdict data).1 t
      (VulnerabilityCheckRun.verdict data).1 (VulnerabilityCheckRun.verdict data).2 [] uerr ::
    (match uerr with
      | some err => logEvents ("report package vulnerability to github failed: " ++ err)
      | none => [])

/-- The pair returned by lines 106-113, given the answer of `UpdateCheckRun`. -/
def publishResult (data : List Data) : Option Error → Nat × Option Error
  | some err => (0, some err)
  | none => (data.length, none)

/-- The four ways a run of `VulnerabilityCheckRun` can go, with the events each
adds after the first creation `r1` and its log `announceLog r1`: the scan
events `sevs`, then what lines 75-113 add. -/
def RunTail (ref : GithubRef) (targetURL : String) (r1 : Except Error (Option CheckRun))
    (scan : Except Error (List Data)) (result : Nat × Option Error) (tail : List Event) : Prop :=
  (∃ err, scan = Except.error err ∧ result = (0, some err) ∧
      tail = logEvents ("checks package vulnerability failed: " ++ err) ++
        (if firstID r1 ≠ 0 then
          [Event.UpdateCheckRunWithError (firstID r1) checkName checkName err] else [])) ∨
  (∃ data t uerr, scan = Except.ok data ∧ firstID r1 ≠ 0 ∧ result = publishResult data uerr ∧
      tail = publishEvents (firstID r1) data t uerr) ∨
  (∃ data err, scan = Except.ok data ∧ firstID r1 = 0 ∧ result = (0, some err) ∧
      tail = Event.CreateCheckRun checkName ref targetURL (Except.error err) ::
        logEvents ("Creating " ++ checkName ++ " check run failed: " ++ err)) ∨
  (∃ data checkRun t uerr, scan = Except.ok data ∧ firstID r1 = 0 ∧
      result = publishResult data uerr ∧
      tail = Event.CreateCheckRun checkName ref targetURL (Except.ok checkRun) ::
        publishEvents (GetID checkRun) data t uerr)

/-- The effect of the scan, or of a tail of it entered with `lang` already
submitted: it appends scanner events only; a success leaves no failed call and
returns the concatenated answers of one `Query` per submitted ecosystem, in
submission order; a failure returns the error of the one failed call. -/
def ScanEffect (lang : List Language) (tr : Trace) (out : Except Error (List Data) × Trace) :
    Prop :=
  ∃ evs, out.2 = tr ++ evs ∧ createResults evs = [] ∧ updates evs = [] ∧
    (∀ e ∈ evs, e.scannerCall ≠ none) ∧
    (∀ data, out.1 = Except.ok data →
      failures evs = [] ∧ queryFindings evs = data ∧ queried evs = lang ++ submitted evs) ∧
    (∀ err, out.1 = Except.error err → failures evs = [err])

/-- The scanner calls expected once `lang` has been submitted and the manifests
`ms` are still to be probed. -/
def expectedCalls (w : World) (repoPath : String) (lang : List Language)
    (ms : List (Language × String)) : List ScannerCall :=
  let present := (ms.map (fun m => (m.1, w.Join repoPath m.2))).filter (fun m => w.FileExists m.2)
  present.map (fun m => ScannerCall.CheckPackages m.1 m.2) ++
    (if lang ++ present.map (fun m => m.1) = [] then [] else [ScannerCall.WaitForQuery]) ++
    (lang ++ present.map (fun m => m.1)).map ScannerCall.Query

/-- The `UpdateCheckRunWithError` calls of a history, as (check run id, error). -/
def errorMarks (tr : List Event) : List (Int × Error) :=
  tr.filterMap (fun e =>
    match e with
    | Event.UpdateCheckRunWithError id _ _ err => some (id, err)
    | _ => none)

/-! ## Example worlds -/

/-- Two findings with the same table header. -/
def findingA : Data := ⟨"|package|advisory|\n", "|yaml|GO-1|\n"⟩

/-- The second example finding. -/
def findingB : Data := ⟨"|package|advisory|\n", "|lodash|NPM-2|\n"⟩

/-- The pull request revision of the examples. -/
def exampleRef : GithubRef := ⟨"unified-ci"⟩

/-- Scenario S3: a working copy `wc` holding `go.sum` and `package.json`, a
scanner that accepts everything and reports one finding for each of the two
ecosystems, a provider that creates check run 42 and accepts the update. -/
def worldS3 : World where
  Join := fun dir name => dir ++ "/" ++ name
  FileExists := fun path => decide (path = "wc/go.sum") || decide (path = "wc/package.json")
  checkPackages := fun _ _ _ _ => none
  query := fun _ _ lang =>
    match lang with
    | Language.Golang => Except.ok [findingA]
    | Language.PHP => Except.ok []
    | Language.NodeJS => Except.ok [findingB]
  createCheckRun := fun _ _ _ _ => Except.ok (some ⟨some 42⟩)
  updateCheckRun := fun _ _ _ _ _ _ _ _ => none
  now := fun tr => tr.length

/-- As `worldS3`, with a stateful scanner: `Query` for an ecosystem fails
unless the history holds an accepted submission for that ecosystem and a
`WaitForQuery`. -/
def worldStateful : World :=
  { worldS3 with
    query := fun tr projectName lang =>
      if lang ∈ submitted tr ∧ Event.WaitForQuery projectName ∈ tr then
        worldS3.query tr projectName lang
      else Except.error "no pending query" }

/-- Scenario S2: as `worldS3`, with no manifest in the working copy. -/
def worldEmpty : World := { worldS3 with FileExists := fun _ => false }

/-- Scenario S4: only `go.sum` is present and the first `CreateCheckRun` call
(the one made on the empty history) fails; later calls create check run 7. -/
def worldS4 : World :=
  { worldS3 with
    FileExists := fun path => decide (path = "wc/go.sum")
    createCheckRun := fun tr _ _ _ =>
      if tr = [] then Except.error "502 Bad Gateway" else Except.ok (some ⟨some 7⟩) }

/-- As `worldS4`, with a provider whose every `CreateCheckRun` call fails. -/
def worldNoProvider : World :=
  { worldS4 with createCheckRun := fun _ _ _ _ => Except.error "502 Bad Gateway" }

/-- As `worldS4`, with a provider that rejects the update. -/
def worldUpdateRejected : World :=
  { worldS4 with updateCheckRun := fun _ _ _ _ _ _ _ _ => some "422 Unprocessable Entity" }

/-- No manifest in the working copy, and a provider whose every `CreateCheckRun`
call fails. -/
def worldEmptyNoProvider : World :=
  { worldEmpty with createCheckRun := fun _ _ _ _ => Except.error "502 Bad Gateway" }

/-- No manifest in the working copy, and a provider whose `CreateCheckRun`
succeeds with a check run that carries no `ID`. -/
def worldEmptyNoID : World :=
  { worldEmpty with createCheckRun := fun _ _ _ _ => Except.ok (some ⟨none⟩) }

/-- Scenario S5: `go.sum` and `composer.lock` are present, the submission of
`composer.lock` fails, and the first creation yields check run 42. -/
def worldS5 : World :=
  { worldS3 with
    FileExists := fun path => decide (path = "wc/go.sum") || decide (path = "wc/composer.lock")
    checkPackages := fun _ _ lang _ =>
      if lang = Language.PHP then some "scanner: upload failed" else none }

/-- As `worldS5`, with a first creation that succeeds with a check run that
carries no `ID`. -/
def worldS5NoID : World :=
  { worldS5 with createCheckRun := fun _ _ _ _ => Except.ok (some ⟨none⟩) }

/-! ## Theorems -/

theorem scannerCalls_append (a b : List Event) :
    scannerCalls (a ++ b) = scannerCalls a ++ scannerCalls b := by
  simp [scannerCalls]

theorem createResults_append (a b : List Event) :
    createResults (a ++ b) = createResults a ++ createResults b := by
  simp [createResults]

theorem updates_append (a b : List Event) : updates (a ++ b) = updates a ++ updates b := by
  simp [updates]

theorem failures_append (a b : List Event) : failures (a ++ b) = failures a ++ failures b := by
  simp [failures]

theorem submitted_append (a b : List Event) :
    submitted (a ++ b) = submitted a ++ submitted b := by
  simp [submitted]

theorem queried_append (a b : List Event) : queried (a ++ b) = queried a ++ queried b := by
  simp [queried]

theorem queryFindings_append (a b : List Event) :
    queryFindings (a ++ b) = queryFindings a ++ queryFindings b := by
  simp [queryFindings]

theorem queryLoop_effect (w : World) (projectName : String) :
    ∀ (lang : List Language) (result : List Data) (tr : Trace),
      ∃ evs, (CheckVulnerability.queryLoop w projectName lang result tr).2 = tr ++ evs ∧
        createResults evs = [] ∧ updates evs = [] ∧ submitted evs = [] ∧
        (∀ e ∈ evs, e.scannerCall ≠ none) ∧
        (∀ data, (CheckVulnerability.queryLoop w projectName lang result tr).1 = Except.ok data →
          failures evs = [] ∧ result ++ queryFindings evs = data ∧ queried evs = lang) ∧
        (∀ err, (CheckVulnerability.queryLoop w projectName lang result tr).1 = Except.error err →
          failures evs = [err]) := by
  intro lang
  induction lang with
  | nil =>
    intro result tr
    refine ⟨[], ?_⟩
    simp [CheckVulnerability.queryLoop, createResults, updates, submitted, failures,
      queryFindings, queried]
  | cons v rest ih =>
    intro result tr
    cases hq : w.query tr projectName v with
    | error err =>
      refine ⟨[Event.Query projectName v (Except.error err)], ?_⟩
      simp [CheckVulnerability.queryLoop, Scanner.Query, hq, createResults, updates, submitted,
        failures, Event.createResult, Event.isUpdateCheckRun, Event.submitted, Event.failure,
        Event.scannerCall]
    | ok data =>
      obtain ⟨evs, h2, hc, hu, hs, hsc, hok, herr⟩ :=
        ih (result ++ data) (tr ++ [Event.Query projectName v (Except.ok data)])
      refine ⟨Event.Query projectName v (Except.ok data) :: evs, ?_⟩
      simp only [CheckVulnerability.queryLoop, Scanner.Query, hq]
      refine ⟨by simp [h2], ?_, ?_, ?_, ?_, ?_, ?_⟩
      · simpa [createResults, Event.createResult] using hc
      · simpa [updates, Event.isUpdateCheckRun] using hu
      · simpa [submitted, Event.submitted] using hs
      · intro e he
        rcases List.mem_cons.mp he with rfl | he
        · simp [Event.scannerCall]
        · exact hsc e he
      · intro d hd
        obtain ⟨hf, hqf, hqd⟩ := hok d hd
        refine ⟨?_, ?_, ?_⟩
        · simpa [failures, Event.failure] using hf
        · simpa [queryFindings, Event.findings, List.append_assoc] using hqf
        · simpa [queried, Event.queried] using hqd
      · intro e he
        simpa [failures, Event.failure] using herr e he

theorem collect_effect (w : World) (projectName : String) (lang : List Language) (tr : Trace) :
    ScanEffect lang tr (CheckVulnerability.collect w projectName lang tr) ∧
      submitted ((CheckVulnerability.collect w projectName lang tr).2.drop tr.length) = [] := by
  unfold CheckVulnerability.collect
  by_cases hl : lang.length > 0
  · obtain ⟨evs, h2, hc, hu, hs, hsc, hok, herr⟩ :=
      queryLoop_effect w projectName lang [] (Scanner.WaitForQuery projectName tr)
    simp only [hl, if_true]
    have h2b : (CheckVulnerability.queryLoop w projectName lang []
        (Scanner.WaitForQuery projectName tr)).2 = tr ++ (Event.WaitForQuery projectName :: evs) := by
      rw [h2]
      simp [Scanner.WaitForQuery]
    refine ⟨⟨Event.WaitForQuery projectName :: evs, h2b, ?_, ?_, ?_, ?_, ?_⟩, ?_⟩
    · simpa [createResults, Event.createResult] using hc
    · simpa [updates, Event.isUpdateCheckRun] using hu
    · intro e he
      rcases List.mem_cons.mp he with rfl | he
      · simp [Event.scannerCall]
      · exact hsc e he
    · intro d hd
      obtain ⟨hf, hqf, hqd⟩ := hok d hd
      refine ⟨?_, ?_, ?_⟩
      · simpa [failures, Event.failure] using hf
      · simpa [queryFindings, Event.findings] using hqf
      · have hs2 : submitted (Event.WaitForQuery projectName :: evs) = [] := by
          simpa [submitted, Event.submitted] using hs
        rw [hs2]
        simpa [queried, Event.queried] using hqd
    · intro e he
      simpa [failures, Event.failure] using herr e he
    · rw [h2b, List.drop_left]
      simpa [submitted, Event.submitted] using hs
  · simp only [hl, if_false]
    have hnil : lang = [] := by
      cases lang with
      | nil => rfl
      | cons a l => simp at hl
    refine ⟨⟨[], ?_⟩, ?_⟩
    · simp [createResults, updates, failures, queryFindings, queried, submitted, hnil]
    · simp [submitted]

theorem fromNodePackage_effect (w : World) (projectName repoPath : String)
    (lang : List Language) (tr : Trace) :
    ScanEffect lang tr (CheckVulnerability.fromNodePackage w projectName repoPath lang tr) := by
  unfold CheckVulnerability.fromNodePackage
  by_cases hf : w.FileExists (w.Join repoPath "package.json") = true
  · simp only [hf, if_true]
    cases hc : w.checkPackages tr projectName Language.NodeJS (w.Join repoPath "package.json") with
    | some err =>
      refine ⟨[Event.CheckPackages projectName Language.NodeJS
        (w.Join repoPath "package.json") (some err)], ?_⟩
      simp [Scanner.CheckPackages, hc, createResults, updates, failures, Event.createResult,
        Event.isUpdateCheckRun, Event.failure, Event.scannerCall]
    | none =>
      obtain ⟨⟨evs, h2, hcr, hu, hsc, hok, herr⟩, hsub⟩ :=
        collect_effect w projectName (lang ++ [Language.NodeJS])
          (tr ++ [Event.CheckPackages projectName Language.NodeJS
            (w.Join repoPath "package.json") none])
      rw [h2, List.drop_left] at hsub
      simp only [Scanner.CheckPackages, hc]
      refine ⟨Event.CheckPackages projectName Language.NodeJS
        (w.Join repoPath "package.json") none :: evs, by simp [h2], ?_, ?_, ?_, ?_, ?_⟩
      · simpa [createResults, Event.createResult] using hcr
      · simpa [updates, Event.isUpdateCheckRun] using hu
      · intro e he
        rcases List.mem_cons.mp he with rfl | he
        · simp [Event.scannerCall]
        · exact hsc e he
      · intro d hd
        obtain ⟨hfl, hqf, hqd⟩ := hok d hd
        refine ⟨?_, ?_, ?_⟩
        · simpa [failures, Event.failure] using hfl
        · simpa [queryFindings, Event.findings] using hqf
        · simpa [queried, Event.queried, submitted, Event.submitted, List.append_assoc]
            using hqd
      · intro e he
        simpa [failures, Event.failure] using herr e he
  · simp only [hf]
    obtain ⟨⟨evs, h2, hcr, hu, hsc, hok, herr⟩, hsub⟩ := collect_effect w projectName lang tr
    exact ⟨evs, h2, hcr, hu, hsc, hok, herr⟩

theorem ScanEffect.submit {lang : List Language} {tr : Trace}
    {out : Except Error (List Data) × Trace} (projectName : String) (l : Language)
    (path : String)
    (h : ScanEffect (lang ++ [l]) (tr ++ [Event.CheckPackages projectName l path none]) out) :
    ScanEffect lang tr out := by
  obtain ⟨evs, h2, hcr, hu, hsc, hok, herr⟩ := h
  refine ⟨Event.CheckPackages projectName l path none :: evs, by simp [h2], ?_, ?_, ?_, ?_, ?_⟩
  · simpa [createResults, Event.createResult] using hcr
  · simpa [updates, Event.isUpdateCheckRun] using hu
  · intro e he
    rcases List.mem_cons.mp he with rfl | he
    · simp [Event.scannerCall]
    · exact hsc e he
  · intro d hd
    obtain ⟨hfl, hqf, hqd⟩ := hok d hd
    refine ⟨?_, ?_, ?_⟩
    · simpa [failures, Event.failure] using hfl
    · simpa [queryFindings, Event.findings] using hqf
    · simpa [queried, Event.queried, submitted, Event.submitted, List.append_assoc] using hqd
  · intro e he
    simpa [failures, Event.failure] using herr e he

theorem ScanEffect.fail (lang : List Language) (tr : Trace) (projectName : String)
    (l : Language) (path : String) (err : Error) :
    ScanEffect lang tr
      (Except.error err, tr ++ [Event.CheckPackages projectName l path (some err)]) := by
  refine ⟨[Event.CheckPackages projectName l path (some err)], ?_⟩
  simp [createResults, updates, failures, Event.createResult, Event.isUpdateCheckRun,
    Event.failure, Event.scannerCall]

theorem fromComposer_effect (w : World) (projectName repoPath : String)
    (lang : List Language) (tr : Trace) :
    ScanEffect lang tr (CheckVulnerability.fromComposer w projectName repoPath lang tr) := by
  unfold CheckVulnerability.fromComposer
  by_cases hf : w.FileExists (w.Join repoPath "composer.lock") = true
  · simp only [hf, if_true]
    cases hc : w.checkPackages tr projectName Language.PHP (w.Join repoPath "composer.lock") with
    | some err =>
      simp only [Scanner.CheckPackages, hc]
      exact ScanEffect.fail lang tr projectName _ _ err
    | none =>
      simp only [Scanner.CheckPackages, hc]
      exact ScanEffect.submit projectName Language.PHP (w.Join repoPath "composer.lock")
        (fromNodePackage_effect w projectName repoPath _ _)
  · simp only [hf]
    exact fromNodePackage_effect w projectName repoPath lang tr

theorem CheckVulnerability_effect (w : World) (projectName repoPath : String) (tr : Trace) :
    ScanEffect [] tr (CheckVulnerability w projectName repoPath tr) := by
  unfold CheckVulnerability
  by_cases hf : w.FileExists (w.Join repoPath "go.sum") = true
  · simp only [hf, if_true]
    cases hc : w.checkPackages tr projectName Language.Golang (w.Join repoPath "go.sum") with
    | some err =>
      simp only [Scanner.CheckPackages, hc]
      exact ScanEffect.fail [] tr projectName _ _ err
    | none =>
      simp only [Scanner.CheckPackages, hc]
      exact ScanEffect.submit projectName Language.Golang (w.Join repoPath "go.sum")
        (fromComposer_effect w projectName repoPath _ _)
  · simp only [hf]
    exact fromComposer_effect w projectName repoPath [] tr

theorem queryLoop_calls (w : World) (projectName : String) :
    ∀ (lang : List Language) (result : List Data) (tr : Trace),
      ∃ evs, (CheckVulnerability.queryLoop w projectName lang result tr).2 = tr ++ evs ∧
        (∀ data, (CheckVulnerability.queryLoop w projectName lang result tr).1 = Except.ok data →
          scannerCalls evs = lang.map ScannerCall.Query) := by
  intro lang
  induction lang with
  | nil =>
    intro result tr
    exact ⟨[], by simp [CheckVulnerability.queryLoop], by simp [scannerCalls]⟩
  | cons v rest ih =>
    intro result tr
    cases hq : w.query tr projectName v with
    | error err =>
      refine ⟨[Event.Query projectName v (Except.error err)], ?_, ?_⟩
      · simp [CheckVulnerability.queryLoop, Scanner.Query, hq]
      · intro data hd
        simp [CheckVulnerability.queryLoop, Scanner.Query, hq] at hd
    | ok d =>
      obtain ⟨evs, h, hc⟩ :=
        ih (result ++ d) (tr ++ [Event.Query projectName v (Except.ok d)])
      refine ⟨Event.Query projectName v (Except.ok d) :: evs, ?_, ?_⟩
      · simp [CheckVulnerability.queryLoop, Scanner.Query, hq, h]
      · intro data hd
        have hd2 : (CheckVulnerability.queryLoop w projectName rest (result ++ d)
            (tr ++ [Event.Query projectName v (Except.ok d)])).1 = Except.ok data := by
          simpa [CheckVulnerability.queryLoop, Scanner.Query, hq] using hd
        have hc2 := hc data hd2
        simp [scannerCalls] at hc2
        simp [scannerCalls, Event.scannerCall, hc2]

theorem collect_calls (w : World) (projectName : String) (lang : List Language) (tr : Trace) :
    ∃ evs, (CheckVulnerability.collect w projectName lang tr).2 = tr ++ evs ∧
      (∀ data, (CheckVulnerability.collect w projectName lang tr).1 = Except.ok data →
        scannerCalls evs =
          (if lang = [] then [] else [ScannerCall.WaitForQuery]) ++
            lang.map ScannerCall.Query) := by
  unfold CheckVulnerability.collect
  cases lang with
  | nil => exact ⟨[], by simp, by simp [scannerCalls]⟩
  | cons v rest =>
    obtain ⟨evs, h, hc⟩ :=
      queryLoop_calls w projectName (v :: rest) [] (Scanner.WaitForQuery projectName tr)
    simp only [List.length_cons, gt_iff_lt, Nat.zero_lt_succ, if_true]
    refine ⟨Event.WaitForQuery projectName :: evs, ?_, ?_⟩
    · rw [h]
      simp [Scanner.WaitForQuery]
    · intro data hd
      have hc2 := hc data hd
      simp [scannerCalls] at hc2
      simp [scannerCalls, Event.scannerCall, hc2]

theorem fromNodePackage_calls (w : World) (projectName repoPath : String)
    (lang : List Language) (tr : Trace) :
    ∃ evs, (CheckVulnerability.fromNodePackage w projectName repoPath lang tr).2 = tr ++ evs ∧
      (∀ data,
        (CheckVulnerability.fromNodePackage w projectName repoPath lang tr).1 = Except.ok data →
        scannerCalls evs =
          expectedCalls w repoPath lang [(Language.NodeJS, "package.json")]) := by
  unfold CheckVulnerability.fromNodePackage
  cases h3 : w.FileExists (w.Join repoPath "package.json")
  · obtain ⟨evs, h, hc⟩ := collect_calls w projectName lang tr
    refine ⟨evs, by simp [h3, h], ?_⟩
    intro data hd
    have hc2 := hc data (by simpa [h3] using hd)
    simp [expectedCalls, h3, hc2]
  · cases hcp : w.checkPackages tr projectName Language.NodeJS (w.Join repoPath "package.json") with
    | some err =>
      refine ⟨[Event.CheckPackages projectName Language.NodeJS
        (w.Join repoPath "package.json") (some err)], ?_, ?_⟩
      · simp [h3, Scanner.CheckPackages, hcp]
      · intro data hd
        simp [h3, Scanner.CheckPackages, hcp] at hd
    | none =>
      obtain ⟨evs, h, hc⟩ := collect_calls w projectName (lang ++ [Language.NodeJS])
        (tr ++ [Event.CheckPackages projectName Language.NodeJS
          (w.Join repoPath "package.json") none])
      refine ⟨Event.CheckPackages projectName Language.NodeJS
          (w.Join repoPath "package.json") none :: evs, ?_, ?_⟩
      · simp [h3, Scanner.CheckPackages, hcp, h]
      · intro data hd
        have hc2 := hc data (by simpa [h3, Scanner.CheckPackages, hcp] using hd)
        simp [scannerCalls] at hc2
        simp [expectedCalls, h3, scannerCalls, Event.scannerCall, hc2]

theorem fromComposer_calls (w : World) (projectName repoPath : String)
    (lang : List Language) (tr : Trace) :
    ∃ evs, (CheckVulnerability.fromComposer w projectName repoPath lang tr).2 = tr ++ evs ∧
      (∀ data,
        (CheckVulnerability.fromComposer w projectName repoPath lang tr).1 = Except.ok data →
        scannerCalls evs = expectedCalls w repoPath lang
          [(Language.PHP, "composer.lock"), (Language.NodeJS, "package.json")]) := by
  unfold CheckVulnerability.fromComposer
  cases h2 : w.FileExists (w.Join repoPath "composer.lock")
  · obtain ⟨evs, h, hc⟩ := fromNodePackage_calls w projectName repoPath lang tr
    refine ⟨evs, by simp [h2, h], ?_⟩
    intro data hd
    have hc2 := hc data (by simpa [h2] using hd)
    simp [expectedCalls, h2] at hc2 ⊢
    exact hc2
  · cases hcp : w.checkPackages tr projectName Language.PHP (w.Join repoPath "composer.lock") with
    | some err =>
      refine ⟨[Event.CheckPackages projectName Language.PHP
        (w.Join repoPath "composer.lock") (some err)], ?_, ?_⟩
      · simp [h2, Scanner.CheckPackages, hcp]
      · intro data hd
        simp [h2, Scanner.CheckPackages, hcp] at hd
    | none =>
      obtain ⟨evs, h, hc⟩ := fromNodePackage_calls w projectName repoPath
        (lang ++ [Language.PHP])
        (tr ++ [Event.CheckPackages projectName Language.PHP
          (w.Join repoPath "composer.lock") none])
      refine ⟨Event.CheckPackages projectName Language.PHP
          (w.Join repoPath "composer.lock") none :: evs, ?_, ?_⟩
      · simp [h2, Scanner.CheckPackages, hcp, h]
      · intro data hd
        have hc2 := hc data (by simpa [h2, Scanner.CheckPackages, hcp] using hd)
        simp [scannerCalls, expectedCalls] at hc2
        simp [expectedCalls, h2, scannerCalls, Event.scannerCall, hc2]

theorem CheckVulnerability_calls (w : World) (projectName repoPath : String) (tr : Trace) :
    ∃ evs, (CheckVulnerability w projectName repoPath tr).2 = tr ++ evs ∧
      (∀ data, (CheckVulnerability w projectName repoPath tr).1 = Except.ok data →
        scannerCalls evs = expectedCalls w repoPath [] manifests) := by
  unfold CheckVulnerability
  cases h1 : w.FileExists (w.Join repoPath "go.sum")
  · obtain ⟨evs, h, hc⟩ := fromComposer_calls w projectName repoPath [] tr
    refine ⟨evs, by simp [h1, h], ?_⟩
    intro data hd
    have hc2 := hc data (by simpa [h1] using hd)
    simp [expectedCalls, manifests, h1] at hc2 ⊢
    exact hc2
  · cases hcp : w.checkPackages tr projectName Language.Golang (w.Join repoPath "go.sum") with
    | some err =>
      refine ⟨[Event.CheckPackages projectName Language.Golang
        (w.Join repoPath "go.sum") (some err)], ?_, ?_⟩
      · simp [h1, Scanner.CheckPackages, hcp]
      · intro data hd
        simp [h1, Scanner.CheckPackages, hcp] at hd
    | none =>
      obtain ⟨evs, h, hc⟩ := fromComposer_calls w projectName repoPath [Language.Golang]
        (tr ++ [Event.CheckPackages projectName Language.Golang (w.Join repoPath "go.sum") none])
      refine ⟨Event.CheckPackages projectName Language.Golang
          (w.Join repoPath "go.sum") none :: evs, ?_, ?_⟩
      · simp [h1, Scanner.CheckPackages, hcp, h]
      · intro data hd
        have hc2 := hc data (by simpa [h1, Scanner.CheckPackages, hcp] using hd)
        simp [scannerCalls, expectedCalls] at hc2
        simp [expectedCalls, manifests, h1, scannerCalls, Event.scannerCall, hc2]

/-- C4: for every subset of the manifests present in the working copy and every
scanner, stateful or not, none of whose calls in this scan fails, the scanner
calls of `CheckVulnerability` are one `CheckPackages` per present manifest in
the fixed order Golang, PHP, NodeJS, then one `WaitForQuery` if a manifest was
submitted, then one `Query` per submitted ecosystem in the same order; the scan
adds no other event and returns findings. -/
theorem CheckVulnerability_scanner_calls (w : World) (projectName repoPath : String)
    (tr : Trace)
    (hok : failures (CheckVulnerability.events w projectName repoPath tr) = []) :
    scannerCalls (CheckVulnerability.events w projectName repoPath tr) =
        (presentManifests w repoPath).map (fun m => ScannerCall.CheckPackages m.1 m.2) ++
        (if presentManifests w repoPath = [] then [] else [ScannerCall.WaitForQuery]) ++
        (presentManifests w repoPath).map (fun m => ScannerCall.Query m.1) ∧
      (∀ e ∈ CheckVulnerability.events w projectName repoPath tr, e.scannerCall ≠ none) ∧
      ∃ data, (CheckVulnerability w projectName repoPath tr).1 = Except.ok data := by
  obtain ⟨evs, h, hc⟩ := CheckVulnerability_calls w projectName repoPath tr
  obtain ⟨evs2, h2, -, -, hsc, -, herr⟩ := CheckVulnerability_effect w projectName repoPath tr
  have hev : evs2 = evs := List.append_cancel_left (h2.symm.trans h)
  subst hev
  have hevents : CheckVulnerability.events w projectName repoPath tr = evs2 := by
    unfold CheckVulnerability.events
    rw [h2, List.drop_left]
  rw [hevents] at hok ⊢
  have hdata : ∃ data, (CheckVulnerability w projectName repoPath tr).1 = Except.ok data := by
    cases hres : (CheckVulnerability w projectName repoPath tr).1 with
    | error err =>
      have := herr err hres
      rw [hok] at this
      simp at this
    | ok data => exact ⟨data, rfl⟩
  obtain ⟨data, hd⟩ := hdata
  refine ⟨?_, hsc, data, hd⟩
  rw [hc data hd]
  simp only [expectedCalls, presentManifests, List.map_map, Function.comp_def, List.nil_append]
  by_cases hp : List.filter (fun m => w.FileExists m.2)
      (List.map (fun m => (m.1, w.Join repoPath m.2)) manifests) = []
  · simp [hp]
  · have hm : List.map (fun (m : Language × String) => m.1) (List.filter (fun m => w.FileExists m.2)
        (List.map (fun m => (m.1, w.Join repoPath m.2)) manifests)) ≠ [] := by
      intro hcontra
      exact hp (List.map_eq_nil_iff.mp hcontra)
    simp [hp, hm]

theorem announce_eq (w : World) (ref : GithubRef) (targetURL : String) (tr : Trace) :
    VulnerabilityCheckRun.announce w ref targetURL tr =
      (firstID (w.createCheckRun tr checkName ref targetURL),
        tr ++ (Event.CreateCheckRun checkName ref targetURL
            (w.createCheckRun tr checkName ref targetURL) ::
          announceLog (w.createCheckRun tr checkName ref targetURL))) := by
  unfold VulnerabilityCheckRun.announce CreateCheckRun
  cases h : w.createCheckRun tr checkName ref targetURL <;>
    simp [firstID, announceLog, logBoth, logEvents]

theorem publish_eq (w : World) (id : Int) (data : List Data) (tr : Trace) :
    ∃ t uerr, VulnerabilityCheckRun.publish w id data tr =
      (publishResult data uerr, tr ++ publishEvents id data t uerr) := by
  unfold VulnerabilityCheckRun.publish UpdateCheckRun
  refine ⟨w.now tr, w.updateCheckRun tr id checkName (VulnerabilityCheckRun.verdict data).1
    (w.now tr) (VulnerabilityCheckRun.verdict data).1 (VulnerabilityCheckRun.verdict data).2 [],
    ?_⟩
  cases h : w.updateCheckRun tr id checkName (VulnerabilityCheckRun.verdict data).1
    (w.now tr) (VulnerabilityCheckRun.verdict data).1 (VulnerabilityCheckRun.verdict data).2 [] <;>
    simp [h, publishResult, publishEvents, logBoth, logEvents]

theorem run_shape (w : World) (ref : GithubRef) (repoPath targetURL : String) (tr : Trace) :
    ∃ sevs tail,
      VulnerabilityCheckRun.events w ref repoPath targetURL tr =
        Event.CreateCheckRun checkName ref targetURL
            (w.createCheckRun tr checkName ref targetURL) ::
          (announceLog (w.createCheckRun tr checkName ref targetURL) ++ sevs ++ tail) ∧
      (CheckVulnerability w ref.repo repoPath
          (VulnerabilityCheckRun.announce w ref targetURL tr).2).2 =
        (VulnerabilityCheckRun.announce w ref targetURL tr).2 ++ sevs ∧
      createResults sevs = [] ∧ updates sevs = [] ∧ (∀ e ∈ sevs, e.scannerCall ≠ none) ∧
      (∀ data, VulnerabilityCheckRun.scan w ref repoPath targetURL tr = Except.ok data →
        failures sevs = [] ∧ queryFindings sevs = data ∧ queried sevs = submitted sevs) ∧
      (∀ err, VulnerabilityCheckRun.scan w ref repoPath targetURL tr = Except.error err →
        failures sevs = [err]) ∧
      RunTail ref targetURL (w.createCheckRun tr checkName ref targetURL)
        (VulnerabilityCheckRun.scan w ref repoPath targetURL tr)
        (VulnerabilityCheckRun w ref repoPath targetURL tr).1 tail := by
  obtain ⟨sevs, h2, hcr, hu, hsc, hok, herr⟩ :=
    CheckVulnerability_effect w ref.repo repoPath (VulnerabilityCheckRun.announce w ref targetURL tr).2
  unfold VulnerabilityCheckRun.events VulnerabilityCheckRun.scan VulnerabilityCheckRun
    VulnerabilityCheckRun.afterAnnounce
  rcases hcv : CheckVulnerability w ref.repo repoPath
    (VulnerabilityCheckRun.announce w ref targetURL tr).2 with ⟨res, trS⟩
  rw [hcv] at h2 hok herr
  simp only at h2 hok herr
  subst h2
  simp only [announce_eq] at *
  clear hcv
  generalize w.createCheckRun tr checkName ref targetURL = r1
  have hok2 : ∀ data, res = Except.ok data →
      failures sevs = [] ∧ queryFindings sevs = data ∧ queried sevs = submitted sevs := by
    intro data hd
    simpa using hok data hd
  cases res with
  | error err =>
    refine ⟨sevs, logEvents ("checks package vulnerability failed: " ++ err) ++
      (if firstID r1 ≠ 0 then
        [Event.UpdateCheckRunWithError (firstID r1) checkName checkName err] else []),
      ?_, rfl, hcr, hu, hsc, hok2, herr, ?_⟩
    · by_cases hid : firstID r1 = 0 <;>
        simp [hid, UpdateCheckRunWithError, logBoth, logEvents, List.append_assoc]
    · left
      refine ⟨err, rfl, ?_, rfl⟩
      by_cases hid : firstID r1 = 0 <;> simp [hid]
  | ok data =>
    by_cases hid : firstID r1 = 0
    · simp only [hid, if_true]
      cases h2 : w.createCheckRun (tr ++ Event.CreateCheckRun checkName ref targetURL r1 ::
          announceLog r1 ++ sevs) checkName ref targetURL with
      | error err =>
        refine ⟨sevs, Event.CreateCheckRun checkName ref targetURL (Except.error err) ::
          logEvents ("Creating " ++ checkName ++ " check run failed: " ++ err),
          ?_, rfl, hcr, hu, hsc, hok2, herr, ?_⟩
        · simp only [CreateCheckRun, h2]
          simp [logBoth, logEvents, List.append_assoc]
        · right; right; left
          exact ⟨data, err, rfl, hid, by simp only [CreateCheckRun, h2], rfl⟩
      | ok checkRun =>
        obtain ⟨t, uerr, hp⟩ := publish_eq w (GetID checkRun) data
          (tr ++ Event.CreateCheckRun checkName ref targetURL r1 :: announceLog r1 ++ sevs ++
            [Event.CreateCheckRun checkName ref targetURL (Except.ok checkRun)])
        refine ⟨sevs, Event.CreateCheckRun checkName ref targetURL (Except.ok checkRun) ::
          publishEvents (GetID checkRun) data t uerr, ?_, rfl, hcr, hu, hsc, hok2, herr, ?_⟩
        · simp only [CreateCheckRun, h2, hp]
          simp [List.append_assoc]
        · right; right; right
          exact ⟨data, checkRun, t, uerr, rfl, hid, by simp only [CreateCheckRun, h2, hp], rfl⟩
    · simp only [hid, if_false]
      obtain ⟨t, uerr, hp⟩ := publish_eq w (firstID r1) data
        (tr ++ Event.CreateCheckRun checkName ref targetURL r1 :: announceLog r1 ++ sevs)
      refine ⟨sevs, publishEvents (firstID r1) data t uerr, ?_, rfl, hcr, hu, hsc, hok2, herr, ?_⟩
      · simp only [hp]
        simp [List.append_assoc]
      · right; left
        exact ⟨data, t, uerr, rfl, hid, by simp only [hp], rfl⟩

theorem queryFindings_of_queried_nil (l : List Event) (h : queried l = []) :
    queryFindings l = [] := by
  induction l with
  | nil => rfl
  | cons e rest ih =>
    cases e <;> simp_all [queried, queryFindings, Event.queried, Event.findings]

theorem obs_logEvents (msg : String) :
    createResults (logEvents msg) = [] ∧ updates (logEvents msg) = [] ∧
      failures (logEvents msg) = [] ∧ queryFindings (logEvents msg) = [] ∧
      queried (logEvents msg) = [] ∧ submitted (logEvents msg) = [] ∧
      scannerCalls (logEvents msg) = [] := by
  simp [logEvents, createResults, updates, failures, queryFindings, queried, submitted,
    scannerCalls, Event.createResult, Event.isUpdateCheckRun, Event.failure, Event.findings,
    Event.queried, Event.submitted, Event.scannerCall]

theorem obs_announceLog (r1 : Except Error (Option CheckRun)) :
    createResults (announceLog r1) = [] ∧ updates (announceLog r1) = [] ∧
      failures (announceLog r1) = [] ∧ queryFindings (announceLog r1) = [] ∧
      queried (announceLog r1) = [] ∧ submitted (announceLog r1) = [] ∧
      scannerCalls (announceLog r1) = [] := by
  cases r1 with
  | error err => exact obs_logEvents _
  | ok checkRun =>
    simp [announceLog, createResults, updates, failures, queryFindings, queried, submitted,
      scannerCalls]

theorem obs_publishEvents (id : Int) (data : List Data) (t : Nat) (uerr : Option Error) :
    createResults (publishEvents id data t uerr) = [] ∧
      updates (publishEvents id data t uerr) =
        [Event.UpdateCheckRun id checkName (VulnerabilityCheckRun.verdict data).1 t
          (VulnerabilityCheckRun.verdict data).1 (VulnerabilityCheckRun.verdict data).2 [] uerr] ∧
      failures (publishEvents id data t uerr) = [] ∧
      queryFindings (publishEvents id data t uerr) = [] ∧
      queried (publishEvents id data t uerr) = [] ∧
      submitted (publishEvents id data t uerr) = [] ∧
      scannerCalls (publishEvents id data t uerr) = [] := by
  cases uerr <;>
    simp [publishEvents, logEvents, createResults, updates, failures, queryFindings, queried,
      submitted, scannerCalls, Event.createResult, Event.isUpdateCheckRun, Event.failure,
      Event.findings, Event.queried, Event.submitted, Event.scannerCall]

theorem obs_cons_create (checkName : String) (ref : GithubRef) (targetURL : String)
    (r : Except Error (Option CheckRun)) (l : List Event) :
    createResults (Event.CreateCheckRun checkName ref targetURL r :: l) = r :: createResults l ∧
      updates (Event.CreateCheckRun checkName ref targetURL r :: l) = updates l ∧
      failures (Event.CreateCheckRun checkName ref targetURL r :: l) = failures l ∧
      queryFindings (Event.CreateCheckRun checkName ref targetURL r :: l) = queryFindings l ∧
      queried (Event.CreateCheckRun checkName ref targetURL r :: l) = queried l ∧
      submitted (Event.CreateCheckRun checkName ref targetURL r :: l) = submitted l ∧
      scannerCalls (Event.CreateCheckRun checkName ref targetURL r :: l) = scannerCalls l := by
  simp [createResults, updates, failures, queryFindings, queried, submitted, scannerCalls,
    Event.createResult, Event.isUpdateCheckRun, Event.failure, Event.findings, Event.queried,
    Event.submitted, Event.scannerCall]

/-- C7: a run of `VulnerabilityCheckRun` that returns without error returns the
number of findings, the findings being the concatenation, in call order, of the
sequences returned by the `Query` calls of the run; these calls are one per
submitted ecosystem, in submission order; the count is 0 when nothing was
submitted. -/
theorem VulnerabilityCheckRun_returns_finding_count (w : World) (ref : GithubRef)
    (repoPath targetURL : String) (tr : Trace)
    (h : (VulnerabilityCheckRun w ref repoPath targetURL tr).1.2 = none) :
    (VulnerabilityCheckRun w ref repoPath targetURL tr).1.1 =
        (queryFindings (VulnerabilityCheckRun.events w ref repoPath targetURL tr)).length ∧
      queried (VulnerabilityCheckRun.events w ref repoPath targetURL tr) =
        submitted (VulnerabilityCheckRun.events w ref repoPath targetURL tr) ∧
      (submitted (VulnerabilityCheckRun.events w ref repoPath targetURL tr) = [] →
        (VulnerabilityCheckRun w ref repoPath targetURL tr).1.1 = 0) := by
  obtain ⟨sevs, tail, hev, -, hcr, hu, hsc, hok, herr, hshape⟩ :=
    run_shape w ref repoPath targetURL tr
  have key : (VulnerabilityCheckRun w ref repoPath targetURL tr).1.1 =
        (queryFindings (VulnerabilityCheckRun.events w ref repoPath targetURL tr)).length ∧
      queried (VulnerabilityCheckRun.events w ref repoPath targetURL tr) =
        submitted (VulnerabilityCheckRun.events w ref repoPath targetURL tr) := by
    rw [hev]
    rcases hshape with ⟨err, -, hres, -⟩ | ⟨data, t, uerr, hscan, -, hres, rfl⟩ |
      ⟨data, err, -, -, hres, -⟩ | ⟨data, checkRun, t, uerr, hscan, -, hres, rfl⟩
    · rw [hres] at h
      simp at h
    · obtain ⟨-, hqf, hqd⟩ := hok data hscan
      rw [hres] at h ⊢
      cases uerr with
      | some e => simp [publishResult] at h
      | none =>
        simp [publishResult, (obs_cons_create _ _ _ _ _).2.2.2, queryFindings_append,
          queried_append, submitted_append, obs_announceLog, obs_publishEvents, hqf, hqd]
    · rw [hres] at h
      simp at h
    · obtain ⟨-, hqf, hqd⟩ := hok data hscan
      rw [hres] at h ⊢
      cases uerr with
      | some e => simp [publishResult] at h
      | none =>
        simp [publishResult, (obs_cons_create _ _ _ _ _).2.2.2, queryFindings_append,
          queried_append, submitted_append, obs_announceLog, obs_publishEvents, hqf, hqd]
  refine ⟨key.1, key.2, ?_⟩
  intro hs
  rw [key.1, queryFindings_of_queried_nil _ (key.2.trans hs)]
  rfl

theorem foldl_append_join (l : List String) (init : String) :
    l.foldl (fun r s => r ++ s) init = init ++ String.join l := by
  induction l generalizing init with
  | nil => simp [String.join]
  | cons a rest ih =>
    have h1 := ih (init ++ a)
    have h2 := ih ("" ++ a)
    simp only [String.join, List.foldl_cons] at h1 h2 ⊢
    rw [h1, h2, String.append_assoc]
    simp

theorem verdict_cons (d0 : Data) (rest : List Data) :
    VulnerabilityCheckRun.verdict (d0 :: rest) =
      ("failure", d0.MDTitle ++ String.join ((d0 :: rest).map (fun d => d.MDTableRow))) := by
  have h : ∀ (l : List Data) (init : String),
      l.foldl (fun message v => message ++ v.MDTableRow) init =
        (l.map (fun d => d.MDTableRow)).foldl (fun r s => r ++ s) init := by
    intro l
    induction l with
    | nil => intro init; rfl
    | cons a t ih => intro init; simp [ih]
  simp only [VulnerabilityCheckRun.verdict, h, foldl_append_join]

/-- C5: when the scan returns `n >= 1` findings, every `UpdateCheckRun` the run
issues has name "vulnerability", conclusion "failure", summary "failure", no
annotations and as body the header of the first finding followed by the rows of
all findings, in order, without separators; the run issues at most one, and
exactly one when its last `CreateCheckRun` call returned a check run. -/
theorem VulnerabilityCheckRun_failure_report (w : World) (ref : GithubRef)
    (repoPath targetURL : String) (tr : Trace) (data : List Data) (hn : 1 ≤ data.length)
    (hscan : VulnerabilityCheckRun.scan w ref repoPath targetURL tr = Except.ok data) :
    (∀ e ∈ updates (VulnerabilityCheckRun.events w ref repoPath targetURL tr),
        ∃ id t uerr, e = Event.UpdateCheckRun id "vulnerability" "failure" t "failure"
          (data[0].MDTitle ++ String.join (data.map (fun d => d.MDTableRow))) [] uerr) ∧
      (updates (VulnerabilityCheckRun.events w ref repoPath targetURL tr)).length ≤ 1 ∧
      (∀ checkRun,
        (createResults (VulnerabilityCheckRun.events w ref repoPath targetURL tr)).getLast? =
            some (Except.ok checkRun) →
          (updates (VulnerabilityCheckRun.events w ref repoPath targetURL tr)).length = 1) := by
  obtain ⟨sevs, tail, hev, -, hcr, hu, hsc, hok, herr, hshape⟩ :=
    run_shape w ref repoPath targetURL tr
  rw [hev]
  cases data with
  | nil => simp at hn
  | cons d0 rest =>
    rcases hshape with ⟨err, hs, -, -⟩ | ⟨data2, t, uerr, hs, -, -, rfl⟩ |
      ⟨data2, err, hs, -, -, rfl⟩ | ⟨data2, checkRun2, t, uerr, hs, -, -, rfl⟩
    · rw [hscan] at hs
      simp at hs
    · rw [hscan] at hs
      injection hs with hs
      subst hs
      simp [(obs_cons_create _ _ _ _ _), updates_append, createResults_append, obs_announceLog,
        obs_publishEvents, hu, hcr, verdict_cons, checkName]
    · simp [(obs_cons_create _ _ _ _ _), updates_append, createResults_append, obs_announceLog,
        obs_logEvents, hu, hcr]
    · rw [hscan] at hs
      injection hs with hs
      subst hs
      simp [(obs_cons_create _ _ _ _ _), updates_append, createResults_append, obs_announceLog,
        obs_publishEvents, hu, hcr, verdict_cons, checkName]

theorem CheckVulnerability_no_manifests (w : World) (projectName repoPath : String) (tr : Trace)
    (h1 : w.FileExists (w.Join repoPath "go.sum") = false)
    (h2 : w.FileExists (w.Join repoPath "composer.lock") = false)
    (h3 : w.FileExists (w.Join repoPath "package.json") = false) :
    CheckVulnerability w projectName repoPath tr = (Except.ok [], tr) := by
  simp [CheckVulnerability, CheckVulnerability.fromComposer, CheckVulnerability.fromNodePackage,
    CheckVulnerability.collect, h1, h2, h3]

/-- C4, witness: a stateful scanner, whose `Query` fails unless the history
holds a submission for the ecosystem and a `WaitForQuery`, on a working copy
with `go.sum` and `package.json`. -/
theorem CheckVulnerability_scanner_calls_witness :
    scannerCalls (CheckVulnerability.events worldStateful "unified-ci" "wc" []) =
      [ScannerCall.CheckPackages Language.Golang "wc/go.sum",
        ScannerCall.CheckPackages Language.NodeJS "wc/package.json",
        ScannerCall.WaitForQuery,
        ScannerCall.Query Language.Golang, ScannerCall.Query Language.NodeJS] ∧
    worldStateful.query [] "unified-ci" Language.Golang = Except.error "no pending query" ∧
    (scannerCalls (CheckVulnerability.events worldStateful "unified-ci" "wc" []) =
        (presentManifests worldStateful "wc").map
          (fun m => ScannerCall.CheckPackages m.1 m.2) ++
        (if presentManifests worldStateful "wc" = [] then [] else [ScannerCall.WaitForQuery]) ++
        (presentManifests worldStateful "wc").map (fun m => ScannerCall.Query m.1) ∧
      (∀ e ∈ CheckVulnerability.events worldStateful "unified-ci" "wc" [],
        e.scannerCall ≠ none) ∧
      ∃ data, (CheckVulnerability worldStateful "unified-ci" "wc" []).1 = Except.ok data) :=
  ⟨by decide, by decide,
    CheckVulnerability_scanner_calls worldStateful "unified-ci" "wc" [] (by decide)⟩

/-- C7, witness: scenario S3 returns 2 without error. -/
theorem VulnerabilityCheckRun_returns_finding_count_witness :
    (VulnerabilityCheckRun worldS3 exampleRef "wc" "https://ci/1" []).1 = (2, none) ∧
    ((VulnerabilityCheckRun worldS3 exampleRef "wc" "https://ci/1" []).1.1 =
        (queryFindings
          (VulnerabilityCheckRun.events worldS3 exampleRef "wc" "https://ci/1" [])).length ∧
      queried (VulnerabilityCheckRun.events worldS3 exampleRef "wc" "https://ci/1" []) =
        submitted (VulnerabilityCheckRun.events worldS3 exampleRef "wc" "https://ci/1" []) ∧
      (submitted (VulnerabilityCheckRun.events worldS3 exampleRef "wc" "https://ci/1" []) = [] →
        (VulnerabilityCheckRun worldS3 exampleRef "wc" "https://ci/1" []).1.1 = 0)) :=
  ⟨by decide,
    VulnerabilityCheckRun_returns_finding_count worldS3 exampleRef "wc" "https://ci/1" []
      (by decide)⟩

/-- C5, witness: scenario S3 publishes the header of the first finding followed
by both rows. -/
theorem VulnerabilityCheckRun_failure_report_witness :
    updates (VulnerabilityCheckRun.events worldS3 exampleRef "wc" "https://ci/1" []) =
      [Event.UpdateCheckRun 42 "vulnerability" "failure" 6 "failure"
        "|package|advisory|\n|yaml|GO-1|\n|lodash|NPM-2|\n" [] none] ∧
    ((∀ e ∈ updates (VulnerabilityCheckRun.events worldS3 exampleRef "wc" "https://ci/1" []),
        ∃ id t uerr, e = Event.UpdateCheckRun id "vulnerability" "failure" t "failure"
          (([findingA, findingB][0]).MDTitle ++
            String.join ([findingA, findingB].map (fun d => d.MDTableRow))) [] uerr) ∧
      (updates (VulnerabilityCheckRun.events worldS3 exampleRef "wc" "https://ci/1" [])).length
        ≤ 1 ∧
      (∀ checkRun,
        (createResults
            (VulnerabilityCheckRun.events worldS3 exampleRef "wc" "https://ci/1" [])).getLast? =
            some (Except.ok checkRun) →
          (updates
            (VulnerabilityCheckRun.events worldS3 exampleRef "wc" "https://ci/1" [])).length
            = 1)) :=
  ⟨by decide,
    VulnerabilityCheckRun_failure_report worldS3 exampleRef "wc" "https://ci/1" []
      [findingA, findingB] (by decide) (by decide)⟩

/-- C3, as stated, fails: with no manifest in the working copy and a provider
whose two `CreateCheckRun` calls both fail, the run makes no scanner call but
issues no `UpdateCheckRun` at all and returns the creation error. -/
theorem no_manifests_claim_counterexample :
    (worldEmptyNoProvider.FileExists (worldEmptyNoProvider.Join "wc" "go.sum") = false ∧
      worldEmptyNoProvider.FileExists (worldEmptyNoProvider.Join "wc" "composer.lock") = false ∧
      worldEmptyNoProvider.FileExists (worldEmptyNoProvider.Join "wc" "package.json") = false) ∧
    scannerCalls
      (VulnerabilityCheckRun.events worldEmptyNoProvider exampleRef "wc" "https://ci/1" []) = [] ∧
    updates
      (VulnerabilityCheckRun.events worldEmptyNoProvider exampleRef "wc" "https://ci/1" []) = [] ∧
    (VulnerabilityCheckRun worldEmptyNoProvider exampleRef "wc" "https://ci/1" []).1 =
      (0, some "502 Bad Gateway") := by
  decide

/-- C3, amended: when none of go.sum, composer.lock and package.json exists, a
run of `VulnerabilityCheckRun` makes no scanner call; if its last
`CreateCheckRun` call returned a check run, it issues exactly one
`UpdateCheckRun`, on that check run, with conclusion "success" and body
"no vulnerabilities"; if that call failed, it issues none and returns the
error. -/
theorem VulnerabilityCheckRun_no_manifests (w : World) (ref : GithubRef)
    (repoPath targetURL : String) (tr : Trace)
    (h1 : w.FileExists (w.Join repoPath "go.sum") = false)
    (h2 : w.FileExists (w.Join repoPath "composer.lock") = false)
    (h3 : w.FileExists (w.Join repoPath "package.json") = false) :
    scannerCalls (VulnerabilityCheckRun.events w ref repoPath targetURL tr) = [] ∧
      (∀ checkRun,
        (createResults (VulnerabilityCheckRun.events w ref repoPath targetURL tr)).getLast? =
            some (Except.ok checkRun) →
          ∃ t uerr, updates (VulnerabilityCheckRun.events w ref repoPath targetURL tr) =
            [Event.UpdateCheckRun (GetID checkRun) "vulnerability" "success" t "success"
              "no vulnerabilities" [] uerr]) ∧
      (∀ err,
        (createResults (VulnerabilityCheckRun.events w ref repoPath targetURL tr)).getLast? =
            some (Except.error err) →
          updates (VulnerabilityCheckRun.events w ref repoPath targetURL tr) = [] ∧
            (VulnerabilityCheckRun w ref repoPath targetURL tr).1 = (0, some err)) := by
  obtain ⟨sevs, tail, hev, hcv, hcr, hu, hsc, hok, herr, hshape⟩ :=
    run_shape w ref repoPath targetURL tr
  have hscan : VulnerabilityCheckRun.scan w ref repoPath targetURL tr = Except.ok [] := by
    simp [VulnerabilityCheckRun.scan, CheckVulnerability_no_manifests w _ _ _ h1 h2 h3]
  have hnil : sevs = [] := by
    rw [CheckVulnerability_no_manifests w _ _ _ h1 h2 h3] at hcv
    simpa using hcv
  subst hnil
  have hsn : scannerCalls ([] : List Event) = [] := rfl
  rw [hev]
  rcases hshape with ⟨err, hs, -, -⟩ | ⟨data2, t, uerr, hs, hid, hres, rfl⟩ |
    ⟨data2, err, hs, -, hres, rfl⟩ | ⟨data2, checkRun2, t, uerr, hs, -, hres, rfl⟩
  · rw [hscan] at hs
    simp at hs
  · rw [hscan] at hs
    injection hs with hs
    subst hs
    cases hr1 : w.createCheckRun tr checkName ref targetURL with
    | error e => simp [hr1, firstID] at hid
    | ok cr =>
      simp [hr1, firstID, (obs_cons_create _ _ _ _ _), updates_append, createResults_append,
        scannerCalls_append, obs_announceLog, obs_publishEvents, hsn, hu, hcr,
        VulnerabilityCheckRun.verdict, checkName]
  · rw [hres]
    simp [(obs_cons_create _ _ _ _ _), updates_append, createResults_append,
      scannerCalls_append, obs_announceLog, obs_logEvents, hsn, hu, hcr]
  · rw [hscan] at hs
    injection hs with hs
    subst hs
    simp [(obs_cons_create _ _ _ _ _), updates_append, createResults_append,
      scannerCalls_append, obs_announceLog, obs_publishEvents, hsn, hu, hcr,
      VulnerabilityCheckRun.verdict, checkName]

/-- C3, witness: scenario S2, an empty working copy and a provider that creates
check run 42. -/
theorem VulnerabilityCheckRun_no_manifests_witness :
    updates (VulnerabilityCheckRun.events worldEmpty exampleRef "wc" "https://ci/1" []) =
      [Event.UpdateCheckRun 42 "vulnerability" "success" 1 "success" "no vulnerabilities" []
        none] ∧
    (scannerCalls (VulnerabilityCheckRun.events worldEmpty exampleRef "wc" "https://ci/1" []) = [] ∧
      (∀ checkRun,
        (createResults
            (VulnerabilityCheckRun.events worldEmpty exampleRef "wc" "https://ci/1" [])).getLast? =
            some (Except.ok checkRun) →
          ∃ t uerr,
            updates (VulnerabilityCheckRun.events worldEmpty exampleRef "wc" "https://ci/1" []) =
              [Event.UpdateCheckRun (GetID checkRun) "vulnerability" "success" t "success"
                "no vulnerabilities" [] uerr]) ∧
      (∀ err,
        (createResults
            (VulnerabilityCheckRun.events worldEmpty exampleRef "wc" "https://ci/1" [])).getLast? =
            some (Except.error err) →
          updates (VulnerabilityCheckRun.events worldEmpty exampleRef "wc" "https://ci/1" []) = [] ∧
            (VulnerabilityCheckRun worldEmpty exampleRef "wc" "https://ci/1" []).1 =
              (0, some err))) :=
  ⟨by decide,
    VulnerabilityCheckRun_no_manifests worldEmpty exampleRef "wc" "https://ci/1" []
      (by decide) (by decide) (by decide)⟩

/-- C1, as stated, fails twice over.  In `worldNoProvider` the first creation
fails, the scan succeeds with one finding and the second creation fails too: no
`UpdateCheckRun` is issued and the run returns `(0, err)`, not the count 1.  In
`worldUpdateRejected` the second creation succeeds but the update is rejected:
the run again returns `(0, err)`. -/
theorem second_creation_claim_counterexample :
    (worldNoProvider.createCheckRun [] checkName exampleRef "https://ci/1" =
        Except.error "502 Bad Gateway" ∧
      VulnerabilityCheckRun.scan worldNoProvider exampleRef "wc" "https://ci/1" [] =
        Except.ok [findingA] ∧
      updates (VulnerabilityCheckRun.events worldNoProvider exampleRef "wc" "https://ci/1" []) =
        [] ∧
      (VulnerabilityCheckRun worldNoProvider exampleRef "wc" "https://ci/1" []).1 =
        (0, some "502 Bad Gateway")) ∧
    (worldUpdateRejected.createCheckRun [] checkName exampleRef "https://ci/1" =
        Except.error "502 Bad Gateway" ∧
      VulnerabilityCheckRun.scan worldUpdateRejected exampleRef "wc" "https://ci/1" [] =
        Except.ok [findingA] ∧
      (VulnerabilityCheckRun worldUpdateRejected exampleRef "wc" "https://ci/1" []).1 =
        (0, some "422 Unprocessable Entity")) := by
  decide

/-- C1, amended: when the first `CreateCheckRun` returns an error and the scan
succeeds with `n` findings, exactly one further `CreateCheckRun` is made; if it
returns a check run, exactly one `UpdateCheckRun` is issued, on that check run,
and if that update succeeds the run returns `n` without error; if the further
creation fails, no `UpdateCheckRun` is issued and the run returns its error. -/
theorem VulnerabilityCheckRun_second_creation (w : World) (ref : GithubRef)
    (repoPath targetURL : String) (tr : Trace) (e1 : Error) (data : List Data)
    (hfirst : w.createCheckRun tr checkName ref targetURL = Except.error e1)
    (hscan : VulnerabilityCheckRun.scan w ref repoPath targetURL tr = Except.ok data) :
    ∃ r2, createResults (VulnerabilityCheckRun.events w ref repoPath targetURL tr) =
        [Except.error e1, r2] ∧
      (∀ checkRun, r2 = Except.ok checkRun →
        ∃ conclusion t body uerr,
          updates (VulnerabilityCheckRun.events w ref repoPath targetURL tr) =
            [Event.UpdateCheckRun (GetID checkRun) "vulnerability" conclusion t conclusion body []
              uerr] ∧
          (uerr = none →
            (VulnerabilityCheckRun w ref repoPath targetURL tr).1 = (data.length, none))) ∧
      (∀ e2, r2 = Except.error e2 →
        updates (VulnerabilityCheckRun.events w ref repoPath targetURL tr) = [] ∧
          (VulnerabilityCheckRun w ref repoPath targetURL tr).1 = (0, some e2)) := by
  obtain ⟨sevs, tail, hev, -, hcr, hu, hsc, hok, herr, hshape⟩ :=
    run_shape w ref repoPath targetURL tr
  rw [hev, hfirst]
  rw [hfirst] at hshape
  rcases hshape with ⟨err, hs, -, -⟩ | ⟨data2, t, uerr, hs, hid, hres, rfl⟩ |
    ⟨data2, err, hs, -, hres, rfl⟩ | ⟨data2, checkRun2, t, uerr, hs, -, hres, rfl⟩
  · rw [hscan] at hs
    simp at hs
  · simp [firstID] at hid
  · refine ⟨Except.error err, ?_, ?_, ?_⟩
    · simp [(obs_cons_create _ _ _ _ _), createResults_append, obs_announceLog, obs_logEvents,
        hcr]
    · intro checkRun hc
      simp at hc
    · intro e2 he2
      injection he2 with he2
      subst he2
      rw [hres]
      simp [(obs_cons_create _ _ _ _ _), updates_append, obs_announceLog, obs_logEvents, hu]
  · rw [hscan] at hs
    injection hs with hs
    subst hs
    refine ⟨Except.ok checkRun2, ?_, ?_, ?_⟩
    · simp [(obs_cons_create _ _ _ _ _), createResults_append, obs_announceLog,
        obs_publishEvents, hcr]
    · intro checkRun hc
      injection hc with hc
      subst hc
      refine ⟨(VulnerabilityCheckRun.verdict data).1, t, (VulnerabilityCheckRun.verdict data).2,
        uerr, ?_, ?_⟩
      · simp [(obs_cons_create _ _ _ _ _), updates_append, obs_announceLog, obs_publishEvents,
          hu, checkName]
      · intro hu2
        rw [hres, hu2]
        rfl
    · intro e2 he2
      simp at he2

/-- C1, witness: scenario S4, the first creation fails, the scan finds one
finding, the second creation yields check run 7, which is updated; the run
returns 1. -/
theorem VulnerabilityCheckRun_second_creation_witness :
    (updates (VulnerabilityCheckRun.events worldS4 exampleRef "wc" "https://ci/1" []) =
        [Event.UpdateCheckRun 7 "vulnerability" "failure" 7 "failure"
          "|package|advisory|\n|yaml|GO-1|\n" [] none] ∧
      (VulnerabilityCheckRun worldS4 exampleRef "wc" "https://ci/1" []).1 = (1, none)) ∧
    ∃ r2, createResults (VulnerabilityCheckRun.events worldS4 exampleRef "wc" "https://ci/1" []) =
        [Except.error "502 Bad Gateway", r2] ∧
      (∀ checkRun, r2 = Except.ok checkRun →
        ∃ conclusion t body uerr,
          updates (VulnerabilityCheckRun.events worldS4 exampleRef "wc" "https://ci/1" []) =
            [Event.UpdateCheckRun (GetID checkRun) "vulnerability" conclusion t conclusion body []
              uerr] ∧
          (uerr = none →
            (VulnerabilityCheckRun worldS4 exampleRef "wc" "https://ci/1" []).1 =
              ([findingA].length, none))) ∧
      (∀ e2, r2 = Except.error e2 →
        updates (VulnerabilityCheckRun.events worldS4 exampleRef "wc" "https://ci/1" []) = [] ∧
          (VulnerabilityCheckRun worldS4 exampleRef "wc" "https://ci/1" []).1 = (0, some e2)) :=
  ⟨by decide,
    VulnerabilityCheckRun_second_creation worldS4 exampleRef "wc" "https://ci/1" []
      "502 Bad Gateway" [findingA] (by decide) (by decide)⟩

theorem obs_mark (id : Int) (name title : String) (err : Error) :
    createResults (if id = 0 then [] else [Event.UpdateCheckRunWithError id name title err]) = [] ∧
      updates (if id = 0 then [] else [Event.UpdateCheckRunWithError id name title err]) = [] ∧
      failures (if id = 0 then [] else [Event.UpdateCheckRunWithError id name title err]) = [] := by
  by_cases h : id = 0 <;>
    simp [h, createResults, updates, failures, Event.createResult, Event.isUpdateCheckRun,
      Event.failure]

/-- C2, as stated, fails: in `worldEmptyNoID` the first `CreateCheckRun` call
succeeds, with a check run that carries no `ID`, the scan succeeds, and
`CreateCheckRun` is called a second time. -/
theorem second_call_claim_counterexample :
    worldEmptyNoID.createCheckRun [] checkName exampleRef "https://ci/1" =
        Except.ok (some ⟨none⟩) ∧
      VulnerabilityCheckRun.scan worldEmptyNoID exampleRef "wc" "https://ci/1" [] =
        Except.ok [] ∧
      createResults (VulnerabilityCheckRun.events worldEmptyNoID exampleRef "wc" "https://ci/1" [])
        = [Except.ok (some ⟨none⟩), Except.ok (some ⟨none⟩)] := by
  decide

theorem firstID_eq_zero_iff (r1 : Except Error (Option CheckRun)) :
    firstID r1 = 0 ↔
      ((∃ err, r1 = Except.error err) ∨ ∃ checkRun, r1 = Except.ok checkRun ∧ GetID checkRun = 0) := by
  cases r1 with
  | error err => simp [firstID]
  | ok checkRun => simp [firstID]

theorem create_calls_of_firstID (w : World) (ref : GithubRef)
    (repoPath targetURL : String) (tr : Trace) :
    ((createResults (VulnerabilityCheckRun.events w ref repoPath targetURL tr)).length = 2 ↔
        (firstID (w.createCheckRun tr checkName ref targetURL) = 0 ∧
          ∃ data, VulnerabilityCheckRun.scan w ref repoPath targetURL tr = Except.ok data)) ∧
      (¬ (firstID (w.createCheckRun tr checkName ref targetURL) = 0 ∧
          ∃ data, VulnerabilityCheckRun.scan w ref repoPath targetURL tr = Except.ok data) →
        (createResults (VulnerabilityCheckRun.events w ref repoPath targetURL tr)).length = 1) ∧
      (createResults (VulnerabilityCheckRun.events w ref repoPath targetURL tr)).head? =
        some (w.createCheckRun tr checkName ref targetURL) := by
  obtain ⟨sevs, tail, hev, -, hcr, hu, hsc, hok, herr, hshape⟩ :=
    run_shape w ref repoPath targetURL tr
  rw [hev]
  refine ⟨?_, ?_, ?_⟩
  · rcases hshape with ⟨err, hs, -, rfl⟩ | ⟨data2, t, uerr, hs, hid, -, rfl⟩ |
      ⟨data2, err, hs, hid, -, rfl⟩ | ⟨data2, checkRun2, t, uerr, hs, hid, -, rfl⟩
    · rw [hs]
      simp [(obs_cons_create _ _ _ _ _), createResults_append, obs_announceLog,
        obs_logEvents, hcr, obs_mark]
    · simp [hid, (obs_cons_create _ _ _ _ _), createResults_append, obs_announceLog,
        obs_publishEvents, hcr]
    · simp [hid, hs, (obs_cons_create _ _ _ _ _), createResults_append, obs_announceLog,
        obs_logEvents, hcr]
    · simp [hid, hs, (obs_cons_create _ _ _ _ _), createResults_append, obs_announceLog,
        obs_publishEvents, hcr]
  · intro hnot
    rcases hshape with ⟨err, hs, -, rfl⟩ | ⟨data2, t, uerr, hs, hid, -, rfl⟩ |
      ⟨data2, err, hs, hid, -, rfl⟩ | ⟨data2, checkRun2, t, uerr, hs, hid, -, rfl⟩
    · simp [(obs_cons_create _ _ _ _ _), createResults_append, obs_announceLog,
        obs_logEvents, hcr, obs_mark]
    · simp [(obs_cons_create _ _ _ _ _), createResults_append, obs_announceLog,
        obs_publishEvents, hcr]
    · exact absurd ⟨hid, data2, hs⟩ hnot
    · exact absurd ⟨hid, data2, hs⟩ hnot
  · simp [(obs_cons_create _ _ _ _ _)]

/-- C2, amended: a run of `VulnerabilityCheckRun` calls `CreateCheckRun` a second
time exactly when the first call left `checkRunID` at zero (the call failed, or
it returned a check run whose `GetID` is zero) and the scan afterwards
succeeded; in every other run `CreateCheckRun` is called exactly once.  The
first answer in the history is that of the first call. -/
theorem VulnerabilityCheckRun_create_calls (w : World) (ref : GithubRef)
    (repoPath targetURL : String) (tr : Trace) :
    ((createResults (VulnerabilityCheckRun.events w ref repoPath targetURL tr)).length = 2 ↔
        (((∃ err, w.createCheckRun tr checkName ref targetURL = Except.error err) ∨
            ∃ checkRun, w.createCheckRun tr checkName ref targetURL = Except.ok checkRun ∧
              GetID checkRun = 0) ∧
          ∃ data, VulnerabilityCheckRun.scan w ref repoPath targetURL tr = Except.ok data)) ∧
      (¬ (((∃ err, w.createCheckRun tr checkName ref targetURL = Except.error err) ∨
            ∃ checkRun, w.createCheckRun tr checkName ref targetURL = Except.ok checkRun ∧
              GetID checkRun = 0) ∧
          ∃ data, VulnerabilityCheckRun.scan w ref repoPath targetURL tr = Except.ok data) →
        (createResults (VulnerabilityCheckRun.events w ref repoPath targetURL tr)).length = 1) ∧
      (createResults (VulnerabilityCheckRun.events w ref repoPath targetURL tr)).head? =
        some (w.createCheckRun tr checkName ref targetURL) := by
  have h := create_calls_of_firstID w ref repoPath targetURL tr
  rw [firstID_eq_zero_iff] at h
  exact h

/-- C6, as stated, fails: in `worldS5NoID` the first creation returns a check
run, one that carries no `ID`; the submission of `composer.lock` then fails,
the run returns that error, and no `UpdateCheckRunWithError` is issued: the
check run obtained by the first creation is not marked errored. -/
theorem scan_failure_claim_counterexample :
    worldS5NoID.createCheckRun [] checkName exampleRef "https://ci/1" =
        Except.ok (some ⟨none⟩) ∧
      failures (VulnerabilityCheckRun.events worldS5NoID exampleRef "wc" "https://ci/1" []) =
        ["scanner: upload failed"] ∧
      (VulnerabilityCheckRun worldS5NoID exampleRef "wc" "https://ci/1" []).1 =
        (0, some "scanner: upload failed") ∧
      errorMarks (VulnerabilityCheckRun.events worldS5NoID exampleRef "wc" "https://ci/1" []) =
        [] := by
  decide

/-- C6, amended: when a scanner submission or fetch of the run fails with error
`e`, the run returns `(0, e)`; if the first creation left a non-zero
`checkRunID` (it returned a check run whose `GetID` is not zero), that check run
is marked errored with `e` through `UpdateCheckRunWithError`; no further
`CreateCheckRun` and no `UpdateCheckRun` is issued. -/
theorem VulnerabilityCheckRun_scan_failure (w : World) (ref : GithubRef)
    (repoPath targetURL : String) (tr : Trace) (e : Error)
    (hfail : e ∈ failures (VulnerabilityCheckRun.events w ref repoPath targetURL tr)) :
    (VulnerabilityCheckRun w ref repoPath targetURL tr).1 = (0, some e) ∧
      (∀ checkRun, w.createCheckRun tr checkName ref targetURL = Except.ok checkRun →
        GetID checkRun ≠ 0 →
        Event.UpdateCheckRunWithError (GetID checkRun) "vulnerability" "vulnerability" e ∈
          VulnerabilityCheckRun.events w ref repoPath targetURL tr) ∧
      createResults (VulnerabilityCheckRun.events w ref repoPath targetURL tr) =
        [w.createCheckRun tr checkName ref targetURL] ∧
      updates (VulnerabilityCheckRun.events w ref repoPath targetURL tr) = [] := by
  obtain ⟨sevs, tail, hev, -, hcr, hu, hsc, hok, herr, hshape⟩ :=
    run_shape w ref repoPath targetURL tr
  rw [hev] at hfail ⊢
  rcases hshape with ⟨err, hs, hres, rfl⟩ | ⟨data2, t, uerr, hs, hid, -, rfl⟩ |
    ⟨data2, err, hs, hid, -, rfl⟩ | ⟨data2, checkRun2, t, uerr, hs, hid, -, rfl⟩
  · have hfs := herr err hs
    have he : e = err := by
      simpa [(obs_cons_create _ _ _ _ _), failures_append, obs_announceLog, obs_logEvents,
        obs_mark, hfs] using hfail
    subst he
    refine ⟨hres, ?_, ?_, ?_⟩
    · intro checkRun hc hne
      have hid : firstID (w.createCheckRun tr checkName ref targetURL) = GetID checkRun := by
        rw [hc]
        rfl
      rw [hid]
      simp [hne, checkName]
    · simp [(obs_cons_create _ _ _ _ _), createResults_append, obs_announceLog, obs_logEvents,
        obs_mark, hcr]
    · simp [(obs_cons_create _ _ _ _ _), updates_append, obs_announceLog, obs_logEvents,
        obs_mark, hu]
  · have hfs := (hok data2 hs).1
    simp [(obs_cons_create _ _ _ _ _), failures_append, obs_announceLog, obs_publishEvents,
      hfs] at hfail
  · have hfs := (hok data2 hs).1
    simp [(obs_cons_create _ _ _ _ _), failures_append, obs_announceLog, obs_logEvents,
      hfs] at hfail
  · have hfs := (hok data2 hs).1
    simp [(obs_cons_create _ _ _ _ _), failures_append, obs_announceLog, obs_publishEvents,
      hfs] at hfail

/-- C6, witness: scenario S5, the submission of `composer.lock` fails after
check run 42 was created; check run 42 is marked errored. -/
theorem VulnerabilityCheckRun_scan_failure_witness :
    errorMarks (VulnerabilityCheckRun.events worldS5 exampleRef "wc" "https://ci/1" []) =
      [(42, "scanner: upload failed")] ∧
    ((VulnerabilityCheckRun worldS5 exampleRef "wc" "https://ci/1" []).1 =
        (0, some "scanner: upload failed") ∧
      (∀ checkRun, worldS5.createCheckRun [] checkName exampleRef "https://ci/1" =
          Except.ok checkRun →
        GetID checkRun ≠ 0 →
        Event.UpdateCheckRunWithError (GetID checkRun) "vulnerability" "vulnerability"
            "scanner: upload failed" ∈
          VulnerabilityCheckRun.events worldS5 exampleRef "wc" "https://ci/1" []) ∧
      createResults (VulnerabilityCheckRun.events worldS5 exampleRef "wc" "https://ci/1" []) =
        [worldS5.createCheckRun [] checkName exampleRef "https://ci/1"] ∧
      updates (VulnerabilityCheckRun.events worldS5 exampleRef "wc" "https://ci/1" []) = []) :=
  ⟨by decide,
    VulnerabilityCheckRun_scan_failure worldS5 exampleRef "wc" "https://ci/1" []
      "scanner: upload failed" (by decide)⟩

/-- C8: for each of the three modes and each value of `enableRetries`, the tasks
`main` hands to the task group are, in order, those of the mode table followed
by the HTTP server task; the retry task is launched in Local and Server mode
exactly when `enableRetries` is set, and never in Worker mode. -/
theorem main_launch_mode_table (m : ModeKind) (enableRetries : Bool) :
    main.launch m.token enableRetries =
        modeTable m enableRetries ++ [GroupTask.RunHTTPServer m.token] ∧
      (GroupTask.RetryErrorMessages ∈ main.launch m.token enableRetries ↔
        (m ≠ ModeKind.Worker ∧ enableRetries = true)) ∧
      main.launch ModeKind.Worker.token enableRetries =
        [GroupTask.StartWorkerMessageSubscription, GroupTask.RunHTTPServer ModeWorker] ∧
      main.launch ModeKind.Local.token enableRetries =
        (if enableRetries then [GroupTask.RetryErrorMessages] else []) ++
          [GroupTask.StartMessageSubscription, GroupTask.WatchLocalRepo,
            GroupTask.RunHTTPServer ModeLocal] ∧
      main.launch ModeKind.Server.token enableRetries =
        (if enableRetries then [GroupTask.RetryErrorMessages] else []) ++
          [GroupTask.WatchServerWorkerRepo, GroupTask.RunHTTPServer ModeServer] := by
  cases m <;> cases enableRetries <;> decide

theorem setFlag_reject (f : Flags) (name : String) (value : Option String) (halt : Parsed)
    (h : FlagSet.setFlag f name value = Arg.Reject halt) :
    (∃ err, halt = parseFail err) ∨ halt = Parsed.Exited 0 [flagUsage] := by
  unfold FlagSet.setFlag at h
  split_ifs at h
  · split at h <;> simp at h
  · split at h
    · simp at h
    · split at h
      · simp at h
      · simp at h
        exact Or.inl ⟨_, h.symm⟩
  · simp at h
    exact Or.inr h.symm
  · simp at h
    exact Or.inl ⟨_, h.symm⟩

theorem readArg_reject (f : Flags) (s : String) (halt : Parsed)
    (h : FlagSet.readArg f s = Arg.Reject halt) :
    (∃ err, halt = parseFail err) ∨ halt = Parsed.Exited 0 [flagUsage] := by
  unfold FlagSet.readArg at h
  split at h
  · split_ifs at h <;> split at h <;> (try split_ifs at h) <;>
      first
      | exact setFlag_reject _ _ _ _ h
      | (simp at h; exact Or.inl ⟨_, h.symm⟩)
  · simp at h

theorem Parse_exited (f : Flags) (argv : List String) :
    ∀ code out, FlagSet.Parse f argv = Parsed.Exited code out →
      flagUsage ∈ out ∧ (code = 2 ∨ (code = 0 ∧ out = [flagUsage])) := by
  induction f, argv using FlagSet.Parse.induct with
  | case1 f => intro code out h; simp [FlagSet.Parse] at h
  | case2 f s rest hr => intro code out h; simp [FlagSet.Parse, hr] at h
  | case3 f s rest hr => intro code out h; simp [FlagSet.Parse, hr] at h
  | case4 f s rest a hr =>
    intro code out h
    simp only [FlagSet.Parse, hr] at h
    subst h
    rcases readArg_reject f s _ hr with ⟨err, he⟩ | he
    · simp only [parseFail, Parsed.Exited.injEq] at he
      obtain ⟨rfl, rfl⟩ := he
      simp
    · simp only [Parsed.Exited.injEq] at he
      obtain ⟨rfl, rfl⟩ := he
      simp
  | case5 f s rest a hr ih =>
    intro code out h
    simp only [FlagSet.Parse, hr] at h
    exact ih code out h
  | case6 f s a hr value rest2 ih =>
    intro code out h
    simp only [FlagSet.Parse, hr] at h
    exact ih code out h
  | case7 f s a hr =>
    intro code out h
    simp only [FlagSet.Parse, hr, parseFail, Parsed.Exited.injEq] at h
    obtain ⟨rfl, rfl⟩ := h
    simp

/-- C9, as stated, fails: with `-mode bogus -version` the process prints the
banner to standard output, writes no usage and returns with status 0; with
`-mode bogus -help` it writes usage but returns with status 0; and with
`-mode bogus -h`, where `-h` is not a defined flag, `flag.Parse()` writes usage
and exits with status 0. -/
theorem unknown_mode_claim_counterexample :
    main.startup "unified-ci/0.3.0-dev" ["-config", "cfg.yaml", "-mode", "bogus", "-version"] =
        ([Output.Printf "unified-ci/0.3.0-dev\n"], Outcome.Return) ∧
      (main.startup "unified-ci/0.3.0-dev"
          ["-config", "cfg.yaml", "-mode", "bogus", "-version"]).2.status = some 0 ∧
      (main.startup "unified-ci/0.3.0-dev"
          ["-config", "cfg.yaml", "-mode", "bogus", "-help"]).2.status = some 0 ∧
      main.startup "unified-ci/0.3.0-dev" ["-config", "cfg.yaml", "-mode", "bogus", "-h"] =
        ([Output.Usage Stream.Stderr], Outcome.Exit 0) := by
  decide

/-- C9, amended: for any argv whose `-mode` value is not one of "local",
"server", "worker", in which neither `-help` nor `-version` is set and on which
`flag.Parse()` does not stop at the undefined flag `-h`, `main` exits with a
non-zero code and writes usage to the error stream.  The flag values are those
`flag.Parse()` leaves when it accepts argv; an argv it rejects for another
reason than `-h` is covered as well. -/
theorem main_unknown_mode_exits (userAgent : String) (argv : List String)
    (hnoh : FlagSet.Parse defaultFlags argv ≠ Parsed.Exited 0 [flagUsage])
    (hflags : ∀ f rest, FlagSet.Parse defaultFlags argv = Parsed.Accepted f rest →
      (f.mode ≠ "local" ∧ f.mode ≠ "server" ∧ f.mode ≠ "worker") ∧
        f.showHelp = false ∧ f.showVersion = false) :
    ∃ code, code ≠ 0 ∧ (main.startup userAgent argv).2 = Outcome.Exit code ∧
      (main.startup userAgent argv).2.status = some code ∧
      Output.Usage Stream.Stderr ∈ (main.startup userAgent argv).1 := by
  cases hp : FlagSet.Parse defaultFlags argv with
  | Accepted f rest =>
    obtain ⟨⟨h1, h2, h3⟩, hhelp, hversion⟩ := hflags f rest hp
    refine ⟨1, by decide, ?_⟩
    by_cases hc : f.configPath = "" <;>
      simp [main.startup, hp, main.flags, hhelp, hversion, hc, h1, h2, h3, ModeLocal,
        ModeServer, ModeWorker, Outcome.status, flagUsage]
  | Exited code out =>
    obtain ⟨hu, hcode⟩ := Parse_exited defaultFlags argv code out hp
    rcases hcode with rfl | ⟨rfl, rfl⟩
    · refine ⟨2, by decide, ?_⟩
      simpa [main.startup, hp, Outcome.status, flagUsage] using hu
    · exact absurd hp hnoh

/-- C9, witness: `-config cfg.yaml -mode bogus`. -/
theorem main_unknown_mode_exits_witness :
    main.startup "unified-ci/0.3.0-dev" ["-config", "cfg.yaml", "-mode", "bogus"] =
        ([Output.Fprintln Stream.Stderr "Unknown working mode: bogus", Output.Usage Stream.Stderr],
          Outcome.Exit 1) ∧
    ∃ code, code ≠ 0 ∧
      (main.startup "unified-ci/0.3.0-dev" ["-config", "cfg.yaml", "-mode", "bogus"]).2 =
        Outcome.Exit code ∧
      (main.startup "unified-ci/0.3.0-dev" ["-config", "cfg.yaml", "-mode", "bogus"]).2.status =
        some code ∧
      Output.Usage Stream.Stderr ∈
        (main.startup "unified-ci/0.3.0-dev" ["-config", "cfg.yaml", "-mode", "bogus"]).1 :=
  ⟨by decide,
    main_unknown_mode_exits "unified-ci/0.3.0-dev" ["-config", "cfg.yaml", "-mode", "bogus"]
      (by decide)
      (fun f rest h => by
        have hp : FlagSet.Parse defaultFlags ["-config", "cfg.yaml", "-mode", "bogus"] =
            Parsed.Accepted ⟨"cfg.yaml", "bogus", false, false, false⟩ [] := by decide
        rw [hp] at h
        injection h with hf hr
        subst hf
        decide)⟩

/-- C10: once the top-level wait of `main` is released, by SIGINT, by SIGTERM
or by the cancellation of the group context, `main` cancels the scope, calls
`ShutdownHTTPServer` exactly once, with a deadline of 60 seconds, waits for
channel `leave` with a timer of 60 seconds, and returns, whether or not the
shutdown call fails and whether or not the wait times out; nothing but a log
line comes between these steps. -/
theorem main_shutdown_sequence (wake : Wake) (shutdownErr : Option Error) (drained : Bool) :
    (main.shutdown wake shutdownErr drained).filter (fun s => !s.isLog) =
        [Step.Cancel, Step.ShutdownHTTPServer (60 * 1000000000),
          Step.SelectLeave (60 * 1000000000), Step.StoreDeinit, Step.Return] ∧
      (main.shutdown wake shutdownErr drained).count (Step.ShutdownHTTPServer (60 * Second)) = 1 ∧
      (∀ d, Step.ShutdownHTTPServer d ∈ main.shutdown wake shutdownErr drained →
        d = 60 * Second) ∧
      (main.shutdown wake shutdownErr drained).getLast? = some Step.Return := by
  cases shutdownErr <;> cases drained <;>
    simp [main.shutdown, Step.isLog, Second]

end UnifiedCI
